import Mathlib

/-!
Verification of the QuizView CSV quiz parser.

This file gives a shallow embedding of the parser in `src/unnamed/part_002`
(the current, quote-aware version of `parseQuizCsv`) together with the
record-splitting strategy of the superseded parser version in
`src/src/lib/csvParser.ts`, and proves or refutes the frozen claims about it.

Modelling conventions:
* JavaScript strings are Lean `String`s processed as `List Char`
  (inputs relevant to the claims are ASCII, so UTF-16 details do not matter);
* `undefined` fields of the in-progress question become `Option` fields;
* the TypeScript cast `currentQuestion as Question` performs no runtime
  check, so the quiz holds the partial record as-is (`PartialQuestion`);
* `console.warn` / `console.log` messages become an explicit `Diag` side
  channel (one constructor per call site);
* the per-row `try/catch` is vacuous in the model: every row operation is a
  total function, matching the fact that no row handler in the source throws.
-/

namespace QuizView

/-- JavaScript `String.prototype.trim`: drop whitespace from both ends. -/
def jsTrim (s : String) : String :=
  String.mk (((s.toList.dropWhile Char.isWhitespace).reverse.dropWhile
      Char.isWhitespace).reverse)

/-- JavaScript `String.prototype.toLowerCase` (ASCII fragment). -/
def jsToLower (s : String) : String :=
  String.mk (s.toList.map Char.toLower)

/-- Numeric value of a decimal digit list, most significant first. -/
def digitsVal (ds : List Char) : Nat :=
  ds.foldl (fun n c => 10 * n + (c.toNat - 48)) 0

/-- JavaScript `parseInt(v, 10)`: skip leading whitespace, optional sign,
then the longest decimal-digit run; `none` models `NaN`. -/
def jsParseInt (s : String) : Option Int :=
  let cs := s.toList.dropWhile Char.isWhitespace
  let core : List Char → Option Int := fun l =>
    let ds := l.takeWhile Char.isDigit
    if ds = [] then none else some (Int.ofNat (digitsVal ds))
  match cs with
  | '+' :: rest => core rest
  | '-' :: rest => (core rest).map Int.neg
  | _ => core cs

/-- Embeds `safeParseInt` from `part_002` lines 21-27. -/
def safeParseInt (value : String) (defaultValue : Int) : Int :=
  if jsTrim value = "" then defaultValue
  else match jsParseInt value with
    | some n => n
    | none => defaultValue

/-- Embeds `getValue` from `part_002` lines 30-33: the cell at `index`, or
the default when the cell is missing or the empty string. -/
def getValue (arr : List String) (index : Nat) (defaultValue : String) : String :=
  match arr[index]? with
  | some s => if s = "" then defaultValue else s
  | none => defaultValue

/-- JavaScript `s.substring(a, b)`: clamps both indices to the string and
swaps them when `a > b` (used by the row tokenizer on quoted cells). -/
def jsSubstringList (l : List Char) (a b : Nat) : List Char :=
  let lo := min a b
  let hi := max a b
  (l.drop lo).take (hi - lo)

/-- JavaScript `.replace(/""/g, CHR34)`: collapse each doubled quote. -/
def collapseDoubleQuotes : List Char → List Char
  | '"' :: '"' :: rest => '"' :: collapseDoubleQuotes rest
  | c :: rest => c :: collapseDoubleQuotes rest
  | [] => []

/-- Embeds the post-scan cell cleanup of `splitCsvRow` (lines 62-67): strip
one layer of enclosing quotes and unescape doubled quotes. -/
def stripOuterQuotes (cell : String) : String :=
  if cell.toList.head? = some '"' ∧ cell.toList.getLast? = some '"' then
    String.mk (collapseDoubleQuotes
      (jsSubstringList cell.toList 1 (cell.toList.length - 1)))
  else cell

/-- Character scan of `splitCsvRow` (lines 36-59): split one record into
cells on commas outside quotes, handling the doubled-quote escape inside a
quoted span, trimming each cell as it is pushed.  The escaped-pair lookahead
of the source (`inQuotes and the next char is a quote`) appears here as the
two-character pattern in the quoted state. -/
def splitCsvRowAux : List Char → List Char → Bool → List String → List String
  | [], cur, _, acc => acc ++ [jsTrim (String.mk cur.reverse)]
  | '"' :: '"' :: rest, cur, true, acc => splitCsvRowAux rest ('"' :: cur) true acc
  | '"' :: rest, cur, true, acc => splitCsvRowAux rest cur false acc
  | '"' :: rest, cur, false, acc => splitCsvRowAux rest cur true acc
  | ',' :: rest, cur, false, acc =>
    splitCsvRowAux rest [] false (acc ++ [jsTrim (String.mk cur.reverse)])
  | c :: rest, cur, inQ, acc => splitCsvRowAux rest (c :: cur) inQ acc

/-- Embeds `splitCsvRow` from `part_002` lines 36-68. -/
def splitCsvRow (row : String) : List String :=
  (splitCsvRowAux row.toList [] false []).map stripOuterQuotes

/-- Character scan of `splitCsvToRecords` (lines 71-96): a record boundary
is a line feed outside a quoted span; a doubled quote is skipped without
toggling the quote state.  The final segment is kept only when non-empty. -/
def splitCsvToRecordsAux : List Char → List Char → Bool → List String
  | [], cur, _ => if cur.isEmpty then [] else [String.mk cur.reverse]
  | '"' :: '"' :: rest, cur, inQ => splitCsvToRecordsAux rest ('"' :: '"' :: cur) inQ
  | '"' :: rest, cur, inQ => splitCsvToRecordsAux rest ('"' :: cur) (!inQ)
  | '\n' :: rest, cur, inQ =>
    if inQ then splitCsvToRecordsAux rest ('\n' :: cur) inQ
    else String.mk cur.reverse :: splitCsvToRecordsAux rest [] inQ
  | c :: rest, cur, inQ => splitCsvToRecordsAux rest (c :: cur) inQ

/-- Embeds `splitCsvToRecords` from `part_002` lines 71-101: scan, then trim
each record and drop empty or whitespace-only records. -/
def splitCsvToRecords (csvString : String) : List String :=
  ((splitCsvToRecordsAux csvString.toList [] false).map jsTrim).filter
    (fun r => r.length > 0 ∧ ¬ r.toList.all Char.isWhitespace)

/-- Quote state of the robust record scanner holds (`true`) whenever a line
feed is met, i.e. no double-quoted span of the buffer contains a line feed. -/
def noQuotedNewlineAux : List Char → Bool → Bool
  | [], _ => true
  | '"' :: '"' :: rest, inQ => noQuotedNewlineAux rest inQ
  | '"' :: rest, inQ => noQuotedNewlineAux rest (!inQ)
  | '\n' :: rest, inQ => !inQ && noQuotedNewlineAux rest inQ
  | _ :: rest, inQ => noQuotedNewlineAux rest inQ

/-- No double-quoted span of the buffer contains a line-feed character. -/
def noQuotedNewline (s : String) : Bool :=
  noQuotedNewlineAux s.toList false

/-- Line splitter of the superseded parser (`csvParser.ts` line 36,
JavaScript `split(CHR10)`): every line feed is a boundary. -/
def jsSplitLinesAux (cs : List Char) (cur : List Char) : List String :=
  match cs with
  | [] => [String.mk cur.reverse]
  | c :: rest =>
    if c = '\n' then String.mk cur.reverse :: jsSplitLinesAux rest []
    else jsSplitLinesAux rest (c :: cur)

/-- Record-splitting strategy of the superseded parser version
(`csvParser.ts` lines 35-38): plain split on line feeds, trim each line,
discard empty lines. -/
def oldSplitRows (s : String) : List String :=
  ((jsSplitLinesAux s.toList []).map jsTrim).filter (fun r => r.length > 0)

/-! ## Data model (from `src/src/types/quiz.ts`)

Question type codes are runtime strings in the source (`QuestionType` is a
union of string literals), so they stay strings here; the invariant that a
built question's code is one of the seven known ones is proved, not typed. -/

/-- The seven known question type codes (`part_002` line 133). -/
def knownTypes : List String := ["WR", "SA", "M", "MC", "TF", "MS", "O"]

/-- One matching pair of an M question. -/
structure MatchingPair where
  choiceNo : Int
  choiceText : String
  matchText : String
deriving DecidableEq

/-- One option of an MC question. -/
structure MCOption where
  percent : Int
  text : String
  htmlFlag : Bool
  feedback : Option String
  feedbackHtmlFlag : Bool
deriving DecidableEq

/-- One option of an MS question. -/
structure MSOption where
  weight : Int
  text : String
  htmlFlag : Bool
  feedback : Option String
  feedbackHtmlFlag : Bool
deriving DecidableEq

/-- One of the two options of a TF question; `definedLine` records the
1-based record index of the defining row (feedback tie-break only). -/
structure TFOption where
  isTrue : Bool
  credit : Int
  feedback : Option String
  htmlFlag : Bool
  definedLine : Nat
deriving DecidableEq

/-- One item of an O question. -/
structure OrderingItem where
  text : String
  htmlFlag : Bool
  feedback : Option String
  feedbackHtmlFlag : Bool
deriving DecidableEq

/-- Short-answer input box dimensions. -/
structure InputBox where
  rows : Int
  cols : Int
deriving DecidableEq

/-- The in-progress question object (`Partial<Question>` in the source).
The source keeps one field `options` shared by MC and MS; since the type
guard on each `option` row keeps the list homogeneous, the two shapes are
split into `options` (MC) and `msOptions` (MS) here.  The TypeScript cast
`as Question` on finalization performs no runtime check, so finalized
questions keep this same shape. -/
structure PartialQuestion where
  type : String
  id : Option String := none
  title : Option String := none
  questionText : Option String := none
  points : Option Int := none
  difficulty : Option Int := none
  image : Option String := none
  hint : Option String := none
  feedback : Option String := none
  initialText : Option String := none
  answerKey : Option String := none
  inputBox : Option InputBox := none
  bestAnswer : Option String := none
  evaluation : Option String := none
  scoring : Option String := none
  pairs : List MatchingPair := []
  options : List MCOption := []
  msOptions : List MSOption := []
  trueOption : Option TFOption := none
  falseOption : Option TFOption := none
  items : List OrderingItem := []
deriving DecidableEq

/-- The parsed quiz: the ordered sequence of finalized questions. -/
structure Quiz where
  questions : List PartialQuestion
deriving DecidableEq

/-- Diagnostics, one constructor per `console.warn` / `console.log` call
site of `parseQuizCsv` in `part_002`. -/
inductive Diag where
  | skippedIncompleteMidstream (recordNo : Nat) (title : Option String)
  | unknownQuestionType (recordNo : Nat) (code : String)
  | answerForNonSA (recordNo : Nat) (qtype : String)
  | scoringIncompatible (recordNo : Nat) (qtype : String)
  | invalidChoiceNo (recordNo : Nat) (raw : String)
  | choiceForNonM (recordNo : Nat) (qtype : String)
  | invalidMatchNo (recordNo : Nat) (raw : String)
  | matchForMissingChoice (recordNo : Nat) (choiceNo : Int)
  | matchForNonM (recordNo : Nat) (qtype : String)
  | optionIncompatible (recordNo : Nat) (qtype : String)
  | trueForNonTF (recordNo : Nat) (qtype : String)
  | falseForNonTF (recordNo : Nat) (qtype : String)
  | itemForNonO (recordNo : Nat) (qtype : String)
  | unrecognizedKey (recordNo : Nat) (key : String)
  | skippedLastQuestion (title : Option String)
deriving DecidableEq

/-! ## Question assembler (state machine of `parseQuizCsv`) -/

/-- JavaScript truthiness of an optional string field: defined and not the
empty string. -/
def truthy : Option String → Bool
  | none => false
  | some s => s ≠ ""

/-- Base completeness check used at both finalization points (`part_002`
lines 126 and 355): type, title, question text and points all present. -/
def baseValid (q : PartialQuestion) : Bool :=
  q.type ≠ "" && truthy q.title && truthy q.questionText && q.points ≠ none

/-- Per-pair completeness used by the M validation (line 358):
a pair fails when its choice text or its match text is empty. -/
def pairIncomplete (p : MatchingPair) : Bool :=
  p.choiceText = "" || p.matchText = ""

/-- Full finalization validation applied to the last in-progress question
at end-of-input (`part_002` lines 351-370). -/
def questionIsValid (q : PartialQuestion) : Bool :=
  if ¬ baseValid q then false
  else if q.type = "M" ∧ (q.pairs = [] ∨ q.pairs.any pairIncomplete) then false
  else if q.type = "MC" ∧ q.options = [] then false
  else if q.type = "TF" ∧ (q.trueOption = none ∨ q.falseOption = none) then false
  else if q.type = "MS" ∧ q.msOptions = [] then false
  else if q.type = "O" ∧ q.items = [] then false
  else if q.type = "SA" ∧ q.bestAnswer = none then false
  else true

/-- Update of the option found by `pairs.find(p => p.choiceNo === cn)`:
the source mutates the first pair with the given choice number. -/
def setChoiceTextAt (cn : Int) (txt : String) : List MatchingPair → List MatchingPair
  | [] => []
  | p :: rest =>
    if p.choiceNo = cn then { p with choiceText := txt } :: rest
    else p :: setChoiceTextAt cn txt rest

/-- Same as `setChoiceTextAt` for the match text (the `match` row). -/
def setMatchTextAt (cn : Int) (txt : String) : List MatchingPair → List MatchingPair
  | [] => []
  | p :: rest =>
    if p.choiceNo = cn then { p with matchText := txt } :: rest
    else p :: setMatchTextAt cn txt rest

/-- In-place mutation `xs[xs.length - 1].feedback = value` on a list. -/
def setLastFeedbackMC (v : String) : List MCOption → List MCOption
  | [] => []
  | [o] => [{ o with feedback := some v }]
  | o :: rest => o :: setLastFeedbackMC v rest

/-- In-place mutation of the last MS option's feedback. -/
def setLastFeedbackMS (v : String) : List MSOption → List MSOption
  | [] => []
  | [o] => [{ o with feedback := some v }]
  | o :: rest => o :: setLastFeedbackMS v rest

/-- In-place mutation of the last ordering item's feedback. -/
def setLastFeedbackItem (v : String) : List OrderingItem → List OrderingItem
  | [] => []
  | [o] => [{ o with feedback := some v }]
  | o :: rest => o :: setLastFeedbackItem v rest

/-- The placeholder choice text created by a `match` row whose choice
number has no pair yet (`part_002` line 263). -/
def placeholderChoiceText (cn : Int) : String :=
  "[Choice " ++ toString cn ++ " Placeholder]"

/-- The `feedback` case of the row switch (`part_002` lines 170-192): the
`feedbackAssigned` if-chain.  The `definedLine ≠ 0` conjuncts embed the
JavaScript truthiness tests on `definedLine` in the TF tie-break. -/
def applyFeedback (q : PartialQuestion) (value : String) : PartialQuestion :=
  if q.type = "MC" ∧ q.options ≠ [] then
    { q with options := setLastFeedbackMC value q.options }
  else if q.type = "MS" ∧ q.msOptions ≠ [] then
    { q with msOptions := setLastFeedbackMS value q.msOptions }
  else if q.type = "TF" then
    match q.falseOption, q.trueOption with
    | some fo, none => { q with falseOption := some { fo with feedback := some value } }
    | some fo, some tr =>
      if fo.definedLine ≠ 0 ∧ tr.definedLine ≠ 0 ∧ fo.definedLine > tr.definedLine then
        { q with falseOption := some { fo with feedback := some value } }
      else
        { q with trueOption := some { tr with feedback := some value } }
    | none, some tr => { q with trueOption := some { tr with feedback := some value } }
    | none, none => { q with feedback := some value }
  else if q.type = "O" ∧ q.items ≠ [] then
    { q with items := setLastFeedbackItem value q.items }
  else
    { q with feedback := some value }

/-- JavaScript `v || undefined` on a cell value. -/
def orUndefined (v : String) : Option String :=
  if v = "" then none else some v

/-- The row switch of `parseQuizCsv` (`part_002` lines 148-344), applied to
the current in-progress question; returns the updated question and the
diagnostics this row emits.  `n` is the 1-based record number. -/
def processKeyed (n : Nat) (typeOrKey : String) (row : List String)
    (q : PartialQuestion) : PartialQuestion × List Diag :=
  if typeOrKey = "id" then ({ q with id := some (getValue row 1 "") }, [])
  else if typeOrKey = "title" then ({ q with title := some (getValue row 1 "") }, [])
  else if typeOrKey = "questiontext" then
    ({ q with questionText := some (getValue row 1 "") }, [])
  else if typeOrKey = "points" then
    ({ q with points := some (safeParseInt (getValue row 1 "") 1) }, [])
  else if typeOrKey = "difficulty" then
    ({ q with difficulty := some (safeParseInt (getValue row 1 "") 0) }, [])
  else if typeOrKey = "image" then ({ q with image := some (getValue row 1 "") }, [])
  else if typeOrKey = "hint" then ({ q with hint := some (getValue row 1 "") }, [])
  else if typeOrKey = "feedback" then (applyFeedback q (getValue row 1 ""), [])
  else if typeOrKey = "initialtext" then
    ({ q with initialText := some (getValue row 1 "") }, [])
  else if typeOrKey = "answerkey" then
    ({ q with answerKey := some (getValue row 1 "") }, [])
  else if typeOrKey = "inputbox" then
    ({ q with inputBox := some ⟨safeParseInt (getValue row 1 "") 1,
        safeParseInt (getValue row 2 "") 40⟩ }, [])
  else if typeOrKey = "answer" then
    if q.type = "SA" then
      ({ q with bestAnswer := some (getValue row 2 ""),
                evaluation := some (if jsToLower (getValue row 3 "") = "regexp" then "regexp"
                  else if jsToLower (getValue row 3 "") = "sensitive" then "sensitive"
                  else "insensitive") }, [])
    else (q, [.answerForNonSA n q.type])
  else if typeOrKey = "scoring" then
    if q.type = "M" ∨ q.type = "MS" ∨ q.type = "O" then
      ({ q with scoring := some (getValue row 1 "") }, [])
    else (q, [.scoringIncompatible n q.type])
  else if typeOrKey = "choice" then
    if q.type = "M" then
      if safeParseInt (getValue row 1 "") 0 ≤ 0 then
        (q, [.invalidChoiceNo n (getValue row 1 "")])
      else if (q.pairs.find?
          (fun p => p.choiceNo = safeParseInt (getValue row 1 "") 0)).isSome then
        ({ q with pairs :=
            setChoiceTextAt (safeParseInt (getValue row 1 "") 0) (getValue row 2 "") q.pairs },
         [])
      else
        ({ q with pairs := q.pairs ++
            [⟨safeParseInt (getValue row 1 "") 0, getValue row 2 "", ""⟩] }, [])
    else (q, [.choiceForNonM n q.type])
  else if typeOrKey = "match" then
    if q.type = "M" then
      if safeParseInt (getValue row 1 "") 0 ≤ 0 then
        (q, [.invalidMatchNo n (getValue row 1 "")])
      else if (q.pairs.find?
          (fun p => p.choiceNo = safeParseInt (getValue row 1 "") 0)).isSome then
        ({ q with pairs :=
            setMatchTextAt (safeParseInt (getValue row 1 "") 0) (getValue row 2 "") q.pairs },
         [])
      else
        ({ q with pairs := q.pairs ++
            [⟨safeParseInt (getValue row 1 "") 0,
              placeholderChoiceText (safeParseInt (getValue row 1 "") 0),
              getValue row 2 ""⟩] },
         [.matchForMissingChoice n (safeParseInt (getValue row 1 "") 0)])
    else (q, [.matchForNonM n q.type])
  else if typeOrKey = "option" then
    if q.type = "MC" then
      ({ q with options := q.options ++
          [⟨safeParseInt (getValue row 1 "") 0, getValue row 2 "",
            jsToLower (getValue row 3 "") = "html",
            orUndefined (getValue row 4 ""), jsToLower (getValue row 5 "") = "html"⟩] }, [])
    else if q.type = "MS" then
      ({ q with msOptions := q.msOptions ++
          [⟨safeParseInt (getValue row 1 "") 0, getValue row 2 "",
            jsToLower (getValue row 3 "") = "html",
            orUndefined (getValue row 4 ""), jsToLower (getValue row 5 "") = "html"⟩] }, [])
    else (q, [.optionIncompatible n q.type])
  else if typeOrKey = "true" then
    if q.type = "TF" then
      ({ q with trueOption := some ⟨true, safeParseInt (getValue row 1 "") 0,
          orUndefined (getValue row 2 ""), jsToLower (getValue row 3 "") = "html", n⟩ }, [])
    else (q, [.trueForNonTF n q.type])
  else if typeOrKey = "false" then
    if q.type = "TF" then
      ({ q with falseOption := some ⟨false, safeParseInt (getValue row 1 "") 0,
          orUndefined (getValue row 2 ""), jsToLower (getValue row 3 "") = "html", n⟩ }, [])
    else (q, [.falseForNonTF n q.type])
  else if typeOrKey = "item" then
    if q.type = "O" then
      ({ q with items := q.items ++
          [⟨getValue row 1 "", jsToLower (getValue row 2 "") = "html",
            orUndefined (getValue row 3 ""), jsToLower (getValue row 5 "") = "html"⟩] }, [])
    else (q, [.itemForNonO n q.type])
  else
    if typeOrKey ≠ "" ∧ jsTrim typeOrKey ≠ "" then (q, [.unrecognizedKey n typeOrKey])
    else (q, [])

/-- Parser state: the questions finalized so far, the in-progress question
(`null` in the source is `none`), and the diagnostics emitted so far. -/
structure ParseState where
  questions : List PartialQuestion
  current : Option PartialQuestion
  diags : List Diag
deriving DecidableEq

/-- The initial parser state. -/
def initState : ParseState := ⟨[], none, []⟩

/-- The fresh in-progress question created by a valid `NewQuestion` row
(`part_002` line 139): only type and the default points are set. -/
def freshQuestion (t : String) : PartialQuestion :=
  { type := t, points := some 1 }

/-- The mid-stream finalization block at the top of the `newquestion`
case (`part_002` lines 125-131): push the in-progress question when it
passes the base check, otherwise log; the in-progress slot itself is
overwritten by the caller right after. -/
def midstreamFinalize (n : Nat) (st : ParseState) : ParseState :=
  match st.current with
  | some cq =>
    if baseValid cq then { st with questions := st.questions ++ [cq] }
    else { st with diags := st.diags ++ [.skippedIncompleteMidstream n cq.title] }
  | none => st

/-- Processing of one tokenized record (`part_002` lines 112-349): the
`newquestion` transition with its mid-stream finalization and type check,
the skip when no question is being built, and the keyed dispatch. -/
def processTokenizedRecord (n : Nat) (row : List String) (st : ParseState) :
    ParseState :=
  if jsToLower (getValue row 0 "") = "newquestion" then
    if getValue row 1 "" ∈ knownTypes then
      { midstreamFinalize n st with
          current := some (freshQuestion (getValue row 1 "")) }
    else
      { midstreamFinalize n st with
          current := none,
          diags := (midstreamFinalize n st).diags ++
            [.unknownQuestionType n (getValue row 1 "")] }
  else
    match st.current with
    | none => st
    | some q =>
      { st with
          current := some (processKeyed n (jsToLower (getValue row 0 "")) row q).1,
          diags := st.diags ++ (processKeyed n (jsToLower (getValue row 0 "")) row q).2 }

/-- Processing of one raw record: tokenize, then dispatch. -/
def processRecord (n : Nat) (rawRecord : String) (st : ParseState) : ParseState :=
  processTokenizedRecord n (splitCsvRow rawRecord) st

/-- The record loop, with 1-based record numbering. -/
def runRecords (n : Nat) (records : List String) (st : ParseState) : ParseState :=
  match records with
  | [] => st
  | r :: rs => runRecords (n + 1) rs (processRecord n r st)

/-- End-of-input finalization of the last in-progress question
(`part_002` lines 351-377): full validation, push or drop. -/
def finalizeLast (st : ParseState) : ParseState :=
  match st.current with
  | none => st
  | some q =>
    if questionIsValid q then { st with questions := st.questions ++ [q] }
    else { st with diags := st.diags ++ [.skippedLastQuestion q.title] }

/-- The whole parser with its diagnostic side channel. -/
def parseQuizCsvFull (csvContent : String) : ParseState :=
  finalizeLast (runRecords 1 (splitCsvToRecords csvContent) initState)

/-- Embeds `parseQuizCsv` from `part_002` lines 104-380. -/
def parseQuizCsv (csvContent : String) : Quiz :=
  ⟨(parseQuizCsvFull csvContent).questions⟩

/-! ## Shape equations for the state machine -/

/-- A non-`newquestion` record in the no-current-question state is a
no-op. -/
theorem processTokenizedRecord_other_none (n : Nat) (row : List String)
    (st : ParseState) (hk : ¬ jsToLower (getValue row 0 "") = "newquestion")
    (hc : st.current = none) : processTokenizedRecord n row st = st := by
  unfold processTokenizedRecord
  rw [if_neg hk, hc]

/-- A non-`newquestion` record while building dispatches to the keyed
handler. -/
theorem processTokenizedRecord_other_some (n : Nat) (row : List String)
    (st : ParseState) (cq : PartialQuestion)
    (hk : ¬ jsToLower (getValue row 0 "") = "newquestion")
    (hc : st.current = some cq) :
    processTokenizedRecord n row st =
      { st with
          current := some (processKeyed n (jsToLower (getValue row 0 "")) row cq).1,
          diags := st.diags ++ (processKeyed n (jsToLower (getValue row 0 "")) row cq).2 } := by
  unfold processTokenizedRecord
  rw [if_neg hk, hc]

/-- End-of-input finalization is a no-op with no question in progress. -/
theorem finalizeLast_none (st : ParseState) (hc : st.current = none) :
    finalizeLast st = st := by
  unfold finalizeLast
  rw [hc]

/-- End-of-input finalization validates and pushes or drops the
in-progress question. -/
theorem finalizeLast_some (st : ParseState) (cq : PartialQuestion)
    (hc : st.current = some cq) :
    finalizeLast st =
      if questionIsValid cq then { st with questions := st.questions ++ [cq] }
      else { st with diags := st.diags ++ [.skippedLastQuestion cq.title] } := by
  unfold finalizeLast
  rw [hc]

/-- The assembler run on an already-split record sequence (used to state
claims about the state machine independently of the record splitter). -/
def parseRecordsFull (records : List String) : ParseState :=
  finalizeLast (runRecords 1 records initState)

/-- Both TF option slots of the in-progress question carry a positive
record index; this holds for every reachable in-progress question, since
`definedLine` is only ever set to the 1-based number of the current
record. -/
def definedLinesPositive (q : PartialQuestion) : Bool :=
  (match q.trueOption with | none => true | some o => 0 < o.definedLine) &&
  (match q.falseOption with | none => true | some o => 0 < o.definedLine)

/-! ## Specification-side definitions

These re-state rules in the words of the specification, to be compared
with the embedded code. -/

/-- The last-open-slot feedback rule as the specification states it:
attach the feedback to the most recently appended element of the relevant
collection when one exists (MC: last option; MS: last option; O: last
item; TF: the option defined at the later record index), and set the
question's general feedback field exactly when no such element exists. -/
def specFeedbackApply (q : PartialQuestion) (v : String) : PartialQuestion :=
  if q.type = "MC" then
    if q.options = [] then { q with feedback := some v }
    else { q with options := setLastFeedbackMC v q.options }
  else if q.type = "MS" then
    if q.msOptions = [] then { q with feedback := some v }
    else { q with msOptions := setLastFeedbackMS v q.msOptions }
  else if q.type = "O" then
    if q.items = [] then { q with feedback := some v }
    else { q with items := setLastFeedbackItem v q.items }
  else if q.type = "TF" then
    match q.trueOption, q.falseOption with
    | none, none => { q with feedback := some v }
    | some tr, none => { q with trueOption := some { tr with feedback := some v } }
    | none, some fo => { q with falseOption := some { fo with feedback := some v } }
    | some tr, some fo =>
      if fo.definedLine > tr.definedLine then
        { q with falseOption := some { fo with feedback := some v } }
      else
        { q with trueOption := some { tr with feedback := some v } }
  else
    { q with feedback := some v }

/-! ## Claim C7: matching pair assembly -/

/-- C7: for a Matching question whose type-specific records are, in order,
`Choice,1,Ottawa`, `Match,1,Canada`, `Choice,2,Canberra`, `Match,2,Australia`,
the finalized question's pairs are exactly the two pairs
(1, Ottawa, Canada) and (2, Canberra, Australia) in that order: a choice
row finds an existing pair by number or appends a new one with empty match
text, and a match row with a seen number updates only that pair's match
text. -/
theorem c7_matching_pairs_exact :
    (parseQuizCsv ("NewQuestion,M\nTitle,Capitals\nQuestionText,Match them\n" ++
        "Choice,1,Ottawa\nMatch,1,Canada\nChoice,2,Canberra\nMatch,2,Australia")).questions =
      [{ type := "M", title := some "Capitals", questionText := some "Match them",
         points := some 1,
         pairs := [⟨1, "Ottawa", "Canada"⟩, ⟨2, "Canberra", "Australia"⟩] }] := by
  decide

/-! ## Claim C1: mid-stream finalization validation -/

/-- C1 counterexample: a question finalized mid-stream is appended after
the base check only.  An MC question with zero options, finalized by a
subsequent `NewQuestion` record, lands in the Quiz even though it fails
the full completeness validation (which requires at least one option). -/
theorem c1_counterexample :
    (parseQuizCsv "NewQuestion,MC\nTitle,T\nQuestionText,Q\nNewQuestion,WR").questions =
      [{ type := "MC", title := some "T", questionText := some "Q", points := some 1 }] ∧
    questionIsValid
      { type := "MC", title := some "T", questionText := some "Q", points := some 1 } = false := by
  decide

/-- C1 (amended): a question finalized mid-stream (by a `newquestion`
record) is appended to the quiz if and only if it passes the base
validation — type, title, question body and points present; the per-type
completeness checks are applied only to the last in-progress question at
end-of-input. -/
theorem c1_amended_midstream_base_check_only
    (n : Nat) (row : List String) (st : ParseState) (cq : PartialQuestion)
    (hcur : st.current = some cq)
    (hkey : jsToLower (getValue row 0 "") = "newquestion") :
    (baseValid cq = true ∧
      (processTokenizedRecord n row st).questions = st.questions ++ [cq]) ∨
    (baseValid cq = false ∧
      (processTokenizedRecord n row st).questions = st.questions) := by
  by_cases hv : baseValid cq
  · left
    refine ⟨hv, ?_⟩
    by_cases hk : getValue row 1 "" ∈ knownTypes <;>
      simp [processTokenizedRecord, midstreamFinalize, hkey, hcur, hv, hk]
  · right
    refine ⟨by simpa using hv, ?_⟩
    by_cases hk : getValue row 1 "" ∈ knownTypes <;>
      simp [processTokenizedRecord, midstreamFinalize, hkey, hcur, hv, hk]

/-- Witness for the amended C1 at a concrete state: the fresh MC question
has no title yet, so the `newquestion` record does not append it. -/
theorem c1_amended_witness :
    ((⟨[], some (freshQuestion "MC"), []⟩ : ParseState).current = some (freshQuestion "MC")) ∧
    jsToLower (getValue ["NewQuestion", "WR"] 0 "") = "newquestion" ∧
    ((baseValid (freshQuestion "MC") = true ∧
        (processTokenizedRecord 4 ["NewQuestion", "WR"]
          ⟨[], some (freshQuestion "MC"), []⟩).questions = [] ++ [freshQuestion "MC"]) ∨
      (baseValid (freshQuestion "MC") = false ∧
        (processTokenizedRecord 4 ["NewQuestion", "WR"]
          ⟨[], some (freshQuestion "MC"), []⟩).questions = [])) :=
  ⟨rfl, by decide,
    c1_amended_midstream_base_check_only 4 ["NewQuestion", "WR"]
      ⟨[], some (freshQuestion "MC"), []⟩ (freshQuestion "MC") rfl (by decide)⟩

/-! ## Claim C8: ordering item cell layout

Cell numbering below is 1-based as in the claim: cell 1 is the row key,
so cell k is list index k - 1. -/

/-- C8 counterexample: MC options do not read their feedback-html flag
from cell 5 — on the record `Option,50,Txt,plain,FB,html` the appended MC
option has `feedbackHtmlFlag = true` taken from cell 6 (`html`), although
cell 5 (`FB`) does not case-insensitively equal `html`. -/
theorem c8_counterexample :
    (parseQuizCsv "NewQuestion,MC\nTitle,T\nQuestionText,Q\nOption,50,Txt,plain,FB,html").questions =
      [{ type := "MC", title := some "T", questionText := some "Q", points := some 1,
         options := [⟨50, "Txt", false, some "FB", true⟩] }] ∧
    jsToLower (getValue (splitCsvRow "Option,50,Txt,plain,FB,html") 4 "") ≠ "html" := by
  decide

/-- C8 (amended): an `item` record on an Ordering question appends an item
with text from cell 2, html flag true iff cell 3 case-insensitively equals
html, feedback from cell 4 (absent when empty or missing), and
feedback-html flag true iff cell 6 case-insensitively equals html — the
same cell 6 that MC and MS options use for their feedback-html flag; the
asymmetry with MC/MS is that the item's feedback sits in cell 4 and cell 5
is ignored. -/
theorem c8_amended_item_cell_layout :
    (∀ (n : Nat) (row : List String) (q : PartialQuestion), q.type = "O" →
      processKeyed n "item" row q =
        ({ q with items := q.items ++
            [⟨getValue row 1 "", jsToLower (getValue row 2 "") = "html",
              orUndefined (getValue row 3 ""), jsToLower (getValue row 5 "") = "html"⟩] },
         [])) ∧
    (∀ (n : Nat) (row : List String) (q : PartialQuestion), q.type = "MC" →
      processKeyed n "option" row q =
        ({ q with options := q.options ++
            [⟨safeParseInt (getValue row 1 "") 0, getValue row 2 "",
              jsToLower (getValue row 3 "") = "html",
              orUndefined (getValue row 4 ""), jsToLower (getValue row 5 "") = "html"⟩] },
         [])) ∧
    (∀ (n : Nat) (row : List String) (q : PartialQuestion), q.type = "MS" →
      processKeyed n "option" row q =
        ({ q with msOptions := q.msOptions ++
            [⟨safeParseInt (getValue row 1 "") 0, getValue row 2 "",
              jsToLower (getValue row 3 "") = "html",
              orUndefined (getValue row 4 ""), jsToLower (getValue row 5 "") = "html"⟩] },
         [])) := by
  refine ⟨fun n row q hO => ?_, fun n row q hMC => ?_, fun n row q hMS => ?_⟩
  · simp [processKeyed, hO]
  · simp [processKeyed, hMC]
  · simp [processKeyed, hMS]

/-- Witness for the amended C8 at concrete rows and questions. -/
theorem c8_amended_witness :
    ((freshQuestion "O").type = "O" ∧
      processKeyed 5 "item" ["Item", "First", "HTML", "well done", "x", "html"]
          (freshQuestion "O") =
        ({ freshQuestion "O" with
            items := [⟨"First", true, some "well done", true⟩] }, [])) ∧
    ((freshQuestion "MC").type = "MC" ∧
      processKeyed 6 "option" ["Option", "50", "Txt", "plain", "FB", "html"]
          (freshQuestion "MC") =
        ({ freshQuestion "MC" with
            options := [⟨50, "Txt", false, some "FB", true⟩] }, [])) ∧
    ((freshQuestion "MS").type = "MS" ∧
      processKeyed 7 "option" ["Option", "2", "Pick", "html", "", "HTML"]
          (freshQuestion "MS") =
        ({ freshQuestion "MS" with
            msOptions := [⟨2, "Pick", true, none, true⟩] }, [])) := by
  refine ⟨⟨rfl, ?_⟩, ⟨rfl, ?_⟩, ⟨rfl, ?_⟩⟩
  · have h := c8_amended_item_cell_layout.1 5
      ["Item", "First", "HTML", "well done", "x", "html"] (freshQuestion "O") rfl
    rw [h]; decide
  · have h := c8_amended_item_cell_layout.2.1 6
      ["Option", "50", "Txt", "plain", "FB", "html"] (freshQuestion "MC") rfl
    rw [h]; decide
  · have h := c8_amended_item_cell_layout.2.2 7
      ["Option", "2", "Pick", "html", "", "HTML"] (freshQuestion "MS") rfl
    rw [h]; decide

/-! ## Claim C3: malformed NewQuestion blocks -/

/-- C3 counterexample: after a malformed `NewQuestion,ZZ` record, a
subsequent valid True/False block parses to a question that differs from
the one obtained without the malformed record: its options' internal
`definedLine` record indices are shifted by one, so the parse is not
literally identical to the parse with the malformed block absent. -/
theorem c3_counterexample :
    (parseQuizCsv ("NewQuestion,ZZ\n" ++
        "NewQuestion,TF\nTitle,T\nQuestionText,Q\nTrue,100\nFalse,0")).questions.map
        (fun q => (q.trueOption.map TFOption.definedLine,
                   q.falseOption.map TFOption.definedLine)) =
      [(some 5, some 6)] ∧
    (parseQuizCsv
        "NewQuestion,TF\nTitle,T\nQuestionText,Q\nTrue,100\nFalse,0").questions.map
        (fun q => (q.trueOption.map TFOption.definedLine,
                   q.falseOption.map TFOption.definedLine)) =
      [(some 4, some 5)] ∧
    (parseQuizCsv ("NewQuestion,ZZ\n" ++
        "NewQuestion,TF\nTitle,T\nQuestionText,Q\nTrue,100\nFalse,0")).questions ≠
      (parseQuizCsv
        "NewQuestion,TF\nTitle,T\nQuestionText,Q\nTrue,100\nFalse,0").questions := by
  refine ⟨by decide, by decide, by decide⟩

/-! ## Claim C2: the last-open-slot feedback rule -/

/-- The embedded `feedback` handler agrees with the specification's
last-open-slot rule on every in-progress question whose TF record indices
are positive (which holds for all reachable ones, records being numbered
from 1; the indices only matter for the TF tie-break, where the source
also tests them for JavaScript truthiness). -/
theorem applyFeedback_eq_spec (q : PartialQuestion) (v : String)
    (hlines : definedLinesPositive q = true) :
    applyFeedback q v = specFeedbackApply q v := by
  by_cases hMC : q.type = "MC"
  · rcases ho : q.options with _ | ⟨o, os⟩ <;>
      simp [applyFeedback, specFeedbackApply, hMC, ho]
  · by_cases hMS : q.type = "MS"
    · rcases ho : q.msOptions with _ | ⟨o, os⟩ <;>
        simp [applyFeedback, specFeedbackApply, hMC, hMS, ho]
    · by_cases hTF : q.type = "TF"
      · rcases hfo : q.falseOption with _ | fo <;> rcases htr : q.trueOption with _ | tr <;>
          simp [definedLinesPositive, hfo, htr] at hlines <;>
          simp [applyFeedback, specFeedbackApply, hMC, hMS, hTF, hfo, htr]
        · by_cases hgt : fo.definedLine > tr.definedLine
          · simp [hgt]
            omega
          · simp [hgt]
      · by_cases hO : q.type = "O"
        · rcases hi : q.items with _ | ⟨i, it⟩ <;>
            simp [applyFeedback, specFeedbackApply, hMC, hMS, hTF, hO, hi]
        · simp [applyFeedback, specFeedbackApply, hMC, hMS, hTF, hO]

/-- C2: while a question is being built, a `feedback` record attaches its
value to the most recently appended element of the currently relevant
collection when one exists — the last MC option, the last MS option, the
last O item, or for TF whichever of the true/false options was defined at
the later record index — and sets the question's general feedback field
exactly when no such eligible element exists (`specFeedbackApply` states
the rule in the specification's words). -/
theorem c2_feedback_last_open_slot (n : Nat) (row : List String)
    (st : ParseState) (q : PartialQuestion) (hcur : st.current = some q)
    (hkey : jsToLower (getValue row 0 "") = "feedback")
    (hlines : definedLinesPositive q = true) :
    (processTokenizedRecord n row st).current =
      some (specFeedbackApply q (getValue row 1 "")) ∧
    (processTokenizedRecord n row st).questions = st.questions := by
  have hfb : applyFeedback q (getValue row 1 "") =
      specFeedbackApply q (getValue row 1 "") :=
    applyFeedback_eq_spec q (getValue row 1 "") hlines
  exact ⟨by simp [processTokenizedRecord, hkey, hcur, processKeyed, hfb],
         by simp [processTokenizedRecord, hkey, hcur, processKeyed, hfb]⟩

/-- The specification's feedback example: an MC question whose options are
Paris (100) and Berlin (0), in that order. -/
def c2ExampleMC : PartialQuestion :=
  { type := "MC", title := some "Caps", questionText := some "Q", points := some 1,
    options := [⟨100, "Paris", false, none, false⟩, ⟨0, "Berlin", false, none, false⟩] }

/-- Witness for C2 at the specification's own example: on an MC question
with options Paris and Berlin, `Feedback,Great job` annotates the
last-added Berlin option and leaves the general feedback untouched. -/
theorem c2_witness :
    ((⟨[], some c2ExampleMC, []⟩ : ParseState).current = some c2ExampleMC) ∧
    jsToLower (getValue ["Feedback", "Great job"] 0 "") = "feedback" ∧
    definedLinesPositive c2ExampleMC = true ∧
    (processTokenizedRecord 9 ["Feedback", "Great job"]
        ⟨[], some c2ExampleMC, []⟩).current =
      some { c2ExampleMC with
              options := [⟨100, "Paris", false, none, false⟩,
                          ⟨0, "Berlin", false, some "Great job", false⟩] } := by
  refine ⟨rfl, by decide, by decide, ?_⟩
  have h := (c2_feedback_last_open_slot 9 ["Feedback", "Great job"]
    ⟨[], some c2ExampleMC, []⟩ c2ExampleMC rfl (by decide) (by decide)).1
  rw [h]; decide

/-! ## Claim C6: match rows for unseen choice numbers -/

/-- The placeholder choice text is never the empty string. -/
theorem placeholderChoiceText_ne_empty (cn : Int) : placeholderChoiceText cn ≠ "" := by
  unfold placeholderChoiceText
  intro h
  have hlen := congrArg String.length h
  simp [String.length_append] at hlen
  exact (by decide : "[Choice ".length ≠ 0) hlen.1.1

/-- C6: for a Matching question, a `match` record whose choice number is
positive but matches no existing pair does not invalidate the question by
itself and does not raise: it appends a new pair carrying that choice
number, the placeholder choice text, and the given match text, and it
emits a warning diagnostic; the appended pair passes the per-pair
completeness check whenever the given match text is non-empty. -/
theorem c6_match_unseen_creates_placeholder (n : Nat) (row : List String)
    (st : ParseState) (q : PartialQuestion) (hcur : st.current = some q)
    (hM : q.type = "M")
    (hkey : jsToLower (getValue row 0 "") = "match")
    (hpos : 0 < safeParseInt (getValue row 1 "") 0)
    (hnew : ∀ p ∈ q.pairs, p.choiceNo ≠ safeParseInt (getValue row 1 "") 0) :
    (processTokenizedRecord n row st).current =
      some { q with pairs := q.pairs ++
        [⟨safeParseInt (getValue row 1 "") 0,
          placeholderChoiceText (safeParseInt (getValue row 1 "") 0),
          getValue row 2 ""⟩] } ∧
    Diag.matchForMissingChoice n (safeParseInt (getValue row 1 "") 0) ∈
      (processTokenizedRecord n row st).diags ∧
    (getValue row 2 "" ≠ "" →
      pairIncomplete ⟨safeParseInt (getValue row 1 "") 0,
        placeholderChoiceText (safeParseInt (getValue row 1 "") 0),
        getValue row 2 ""⟩ = false) := by
  have hcn : ¬ (safeParseInt (getValue row 1 "") 0 ≤ 0) := by omega
  have hfind : q.pairs.find?
      (fun p => p.choiceNo = safeParseInt (getValue row 1 "") 0) = none :=
    List.find?_eq_none.mpr (by intro p hp; simpa using hnew p hp)
  refine ⟨?_, ?_, ?_⟩
  · simp [processTokenizedRecord, hkey, hcur, processKeyed, hM, hcn, hfind]
  · simp [processTokenizedRecord, hkey, hcur, processKeyed, hM, hcn, hfind]
  · intro hne
    simp [pairIncomplete, placeholderChoiceText_ne_empty, hne]

/-- The C6 example question: a bare Matching question with no pairs yet. -/
def c6ExampleM : PartialQuestion :=
  { type := "M", title := some "T", questionText := some "Q", points := some 1 }

/-- Witness for C6: a `Match,3,Canada` record with no prior pair number 3
creates the placeholder pair and the warning. -/
theorem c6_witness :
    ((⟨[], some c6ExampleM, []⟩ : ParseState).current = some c6ExampleM) ∧
    (0 : Int) < safeParseInt (getValue ["Match", "3", "Canada"] 1 "") 0 ∧
    (processTokenizedRecord 4 ["Match", "3", "Canada"]
        ⟨[], some c6ExampleM, []⟩).current =
      some { c6ExampleM with pairs := [⟨3, "[Choice 3 Placeholder]", "Canada"⟩] } ∧
    Diag.matchForMissingChoice 4 3 ∈
      (processTokenizedRecord 4 ["Match", "3", "Canada"]
        ⟨[], some c6ExampleM, []⟩).diags := by
  have h := c6_match_unseen_creates_placeholder 4 ["Match", "3", "Canada"]
    ⟨[], some c6ExampleM, []⟩ c6ExampleM rfl rfl (by decide) (by decide) (by decide)
  refine ⟨rfl, by decide, ?_, ?_⟩
  · rw [h.1]; decide
  · have h2 := h.2.1
    have e : safeParseInt (getValue ["Match", "3", "Canada"] 1 "") 0 = 3 := by decide
    rw [e] at h2
    exact h2

/-! ## Claim C9: total, non-throwing parse -/

/-- A record whose key is not `newquestion` leaves the state untouched
when no question is being built (the source continues before any handler
or logging runs). -/
theorem processRecord_none_skip (n : Nat) (r : String) (st : ParseState)
    (hcur : st.current = none)
    (hkey : jsToLower (getValue (splitCsvRow r) 0 "") ≠ "newquestion") :
    processRecord n r st = st := by
  simp [processRecord, processTokenizedRecord, hkey, hcur]

/-- Running any records without a `newquestion` key from the
no-current-question state is the identity. -/
theorem runRecords_none_skip (rs : List String) : ∀ (n : Nat) (st : ParseState),
    st.current = none →
    (∀ r ∈ rs, jsToLower (getValue (splitCsvRow r) 0 "") ≠ "newquestion") →
    runRecords n rs st = st := by
  induction rs with
  | nil => intro n st _ _; rfl
  | cons r rs ih =>
    intro n st hcur hall
    rw [runRecords, processRecord_none_skip n r st hcur (hall r (by simp))]
    exact ih (n + 1) st hcur (fun x hx => hall x (by simp [hx]))

/-- C9: the parser is a total function returning a Quiz on every buffer
(totality holds by construction of the embedding — no row handler can
fail), and a buffer none of whose records carries the `newquestion` key —
in particular the empty buffer, or any buffer of malformed or unknown
records — yields a Quiz with an empty question sequence, not an error. -/
theorem c9_no_newquestion_yields_empty (s : String)
    (h : ∀ r ∈ splitCsvToRecords s,
        jsToLower (getValue (splitCsvRow r) 0 "") ≠ "newquestion") :
    parseQuizCsv s = ⟨[]⟩ := by
  unfold parseQuizCsv parseQuizCsvFull
  rw [runRecords_none_skip (splitCsvToRecords s) 1 initState rfl h]
  rfl

/-- Witness for C9 on a buffer with an unbalanced quote and no
`NewQuestion` record. -/
theorem c9_witness :
    (∀ r ∈ splitCsvToRecords "\"abc\nxyz",
        jsToLower (getValue (splitCsvRow r) 0 "") ≠ "newquestion") ∧
    parseQuizCsv "\"abc\nxyz" = ⟨[]⟩ :=
  ⟨by decide, c9_no_newquestion_yields_empty _ (by decide)⟩

/-! ## Claim C10: completeness invariant of every output question -/

/-- The feedback handler never changes the question type. -/
theorem applyFeedback_type (q : PartialQuestion) (v : String) :
    (applyFeedback q v).type = q.type := by
  unfold applyFeedback
  repeat' split
  all_goals rfl

/-- No row handler changes the question type. -/
theorem processKeyed_type (n : Nat) (k : String) (row : List String)
    (q : PartialQuestion) : (processKeyed n k row q).1.type = q.type := by
  unfold processKeyed
  by_cases h1 : k = "id"
  · rw [if_pos h1]
  rw [if_neg h1]
  by_cases h2 : k = "title"
  · rw [if_pos h2]
  rw [if_neg h2]
  by_cases h3 : k = "questiontext"
  · rw [if_pos h3]
  rw [if_neg h3]
  by_cases h4 : k = "points"
  · rw [if_pos h4]
  rw [if_neg h4]
  by_cases h5 : k = "difficulty"
  · rw [if_pos h5]
  rw [if_neg h5]
  by_cases h6 : k = "image"
  · rw [if_pos h6]
  rw [if_neg h6]
  by_cases h7 : k = "hint"
  · rw [if_pos h7]
  rw [if_neg h7]
  by_cases h8 : k = "feedback"
  · rw [if_pos h8]
    exact applyFeedback_type q (getValue row 1 "")
  rw [if_neg h8]
  by_cases h9 : k = "initialtext"
  · rw [if_pos h9]
  rw [if_neg h9]
  by_cases h10 : k = "answerkey"
  · rw [if_pos h10]
  rw [if_neg h10]
  by_cases h11 : k = "inputbox"
  · rw [if_pos h11]
  rw [if_neg h11]
  by_cases h12 : k = "answer"
  · rw [if_pos h12]
    by_cases hq : q.type = "SA"
    · rw [if_pos hq]
    · rw [if_neg hq]
  rw [if_neg h12]
  by_cases h13 : k = "scoring"
  · rw [if_pos h13]
    by_cases hq : q.type = "M" ∨ q.type = "MS" ∨ q.type = "O"
    · rw [if_pos hq]
    · rw [if_neg hq]
  rw [if_neg h13]
  by_cases h14 : k = "choice"
  · rw [if_pos h14]
    by_cases hq : q.type = "M"
    · rw [if_pos hq]
      by_cases hc : safeParseInt (getValue row 1 "") 0 ≤ 0
      · rw [if_pos hc]
      · rw [if_neg hc]
        by_cases hf : (q.pairs.find? (fun p => p.choiceNo = safeParseInt (getValue row 1 "") 0)).isSome
        · rw [if_pos hf]
        · rw [if_neg hf]
    · rw [if_neg hq]
  rw [if_neg h14]
  by_cases h15 : k = "match"
  · rw [if_pos h15]
    by_cases hq : q.type = "M"
    · rw [if_pos hq]
      by_cases hc : safeParseInt (getValue row 1 "") 0 ≤ 0
      · rw [if_pos hc]
      · rw [if_neg hc]
        by_cases hf : (q.pairs.find? (fun p => p.choiceNo = safeParseInt (getValue row 1 "") 0)).isSome
        · rw [if_pos hf]
        · rw [if_neg hf]
    · rw [if_neg hq]
  rw [if_neg h15]
  by_cases h16 : k = "option"
  · rw [if_pos h16]
    by_cases hq : q.type = "MC"
    · rw [if_pos hq]
    · rw [if_neg hq]
      by_cases hq2 : q.type = "MS"
      · rw [if_pos hq2]
      · rw [if_neg hq2]
  rw [if_neg h16]
  by_cases h17 : k = "true"
  · rw [if_pos h17]
    by_cases hq : q.type = "TF"
    · rw [if_pos hq]
    · rw [if_neg hq]
  rw [if_neg h17]
  by_cases h18 : k = "false"
  · rw [if_pos h18]
    by_cases hq : q.type = "TF"
    · rw [if_pos hq]
    · rw [if_neg hq]
  rw [if_neg h18]
  by_cases h19 : k = "item"
  · rw [if_pos h19]
    by_cases hq : q.type = "O"
    · rw [if_pos hq]
    · rw [if_neg hq]
  rw [if_neg h19]
  by_cases hlast : k ≠ "" ∧ jsTrim k ≠ ""
  · rw [if_pos hlast]
  · rw [if_neg hlast]


/-- The completeness facts carried by every finalized question. -/
def goodQuestion (q : PartialQuestion) : Prop :=
  truthy q.title = true ∧ truthy q.questionText = true ∧
  q.points ≠ none ∧ q.type ∈ knownTypes

/-- Invariant of the parse loop: every finalized question is complete and
the in-progress question, when present, has a known type code. -/
def stInv (st : ParseState) : Prop :=
  (∀ q ∈ st.questions, goodQuestion q) ∧
  (∀ q, st.current = some q → q.type ∈ knownTypes)

/-- A finalized question of known type passing the base check is good. -/
theorem goodQuestion_of_baseValid (q : PartialQuestion)
    (hb : baseValid q = true) (ht : q.type ∈ knownTypes) : goodQuestion q := by
  simp only [baseValid, Bool.and_eq_true] at hb
  exact ⟨hb.1.1.2, hb.1.2, by simpa using hb.2, ht⟩

/-- Every question finalized mid-stream from an invariant state is good. -/
theorem midstreamFinalize_questions (n : Nat) (st : ParseState) (h : stInv st) :
    ∀ q ∈ (midstreamFinalize n st).questions, goodQuestion q := by
  obtain ⟨hqs, hcur⟩ := h
  intro q hq
  unfold midstreamFinalize at hq
  rcases hc : st.current with _ | cq <;> rw [hc] at hq
  · exact hqs q hq
  · by_cases hb : baseValid cq <;> simp [hb] at hq
    · rcases hq with hq | hq
      · exact hqs q hq
      · exact hq ▸ goodQuestion_of_baseValid cq hb (hcur cq hc)
    · exact hqs q hq

/-- One record preserves the parse invariant. -/
theorem processTokenizedRecord_inv (n : Nat) (row : List String)
    (st : ParseState) (h : stInv st) : stInv (processTokenizedRecord n row st) := by
  have hmidq := midstreamFinalize_questions n st h
  obtain ⟨hqs, hcur⟩ := h
  by_cases hk : jsToLower (getValue row 0 "") = "newquestion"
  · by_cases hkn : getValue row 1 "" ∈ knownTypes
    · have hshape : processTokenizedRecord n row st =
          { midstreamFinalize n st with
              current := some (freshQuestion (getValue row 1 "")) } := by
        unfold processTokenizedRecord
        rw [if_pos hk, if_pos hkn]
      rw [hshape]
      refine ⟨hmidq, ?_⟩
      intro q hq
      have hq' : freshQuestion (getValue row 1 "") = q := Option.some.inj hq
      exact hq' ▸ hkn
    · have hshape : processTokenizedRecord n row st =
          { midstreamFinalize n st with
              current := none,
              diags := (midstreamFinalize n st).diags ++
                [.unknownQuestionType n (getValue row 1 "")] } := by
        unfold processTokenizedRecord
        rw [if_pos hk, if_neg hkn]
      rw [hshape]
      exact ⟨hmidq, fun q hq => Option.noConfusion hq⟩
  · rcases hc : st.current with _ | cq
    · rw [processTokenizedRecord_other_none n row st hk hc]
      exact ⟨hqs, hcur⟩
    · rw [processTokenizedRecord_other_some n row st cq hk hc]
      refine ⟨hqs, ?_⟩
      intro q hq
      have hq' : (processKeyed n (jsToLower (getValue row 0 "")) row cq).1 = q :=
        Option.some.inj hq
      rw [← hq', processKeyed_type]
      exact hcur cq hc

/-- The whole record loop preserves the parse invariant. -/
theorem runRecords_inv (rs : List String) : ∀ (n : Nat) (st : ParseState),
    stInv st → stInv (runRecords n rs st) := by
  induction rs with
  | nil => intro n st h; exact h
  | cons r rs ih =>
    intro n st h
    exact ih (n + 1) _ (processTokenizedRecord_inv n (splitCsvRow r) st h)

/-- Full validation passing implies the base check passing. -/
theorem baseValid_of_questionIsValid (q : PartialQuestion)
    (h : questionIsValid q = true) : baseValid q = true := by
  by_cases hb : baseValid q
  · exact hb
  · simp [questionIsValid, hb] at h

/-- End-of-input finalization preserves the parse invariant. -/
theorem finalizeLast_inv (st : ParseState) (h : stInv st) :
    stInv (finalizeLast st) := by
  obtain ⟨hqs, hcur⟩ := h
  rcases hc : st.current with _ | cq
  · rw [finalizeLast_none st hc]
    exact ⟨hqs, hcur⟩
  · rw [finalizeLast_some st cq hc]
    by_cases hv : questionIsValid cq
    · rw [if_pos hv]
      refine ⟨?_, fun q hq => hcur q hq⟩
      intro q hq
      rcases List.mem_append.mp hq with hq | hq
      · exact hqs q hq
      · rw [List.mem_singleton] at hq
        exact hq ▸ goodQuestion_of_baseValid cq
          (baseValid_of_questionIsValid cq hv) (hcur cq hc)
    · rw [if_neg hv]
      exact ⟨hqs, fun q hq => hcur q hq⟩

/-- C10: every question present in the returned Quiz has a defined,
non-empty title, a defined, non-empty question body, a defined points
value, and a type among the seven known codes; the empty string counts as
missing because the finalization checks test truthiness. -/
theorem c10_output_questions_complete (s : String) (q : PartialQuestion)
    (hq : q ∈ (parseQuizCsv s).questions) :
    q.title ≠ none ∧ q.title ≠ some "" ∧
    q.questionText ≠ none ∧ q.questionText ≠ some "" ∧
    q.points ≠ none ∧ q.type ∈ knownTypes := by
  have hinv : stInv (parseQuizCsvFull s) :=
    finalizeLast_inv _ (runRecords_inv _ 1 initState
      ⟨by simp [initState], by simp [initState]⟩)
  have hg := hinv.1 q hq
  obtain ⟨h1, h2, h3, h4⟩ := hg
  rcases ht : q.title with _ | t
  · rw [ht] at h1; simp [truthy] at h1
  · rcases hx : q.questionText with _ | x
    · rw [hx] at h2; simp [truthy] at h2
    · rw [ht] at h1
      rw [hx] at h2
      simp [truthy] at h1 h2
      exact ⟨by simp, by simp [h1], by simp, by simp [h2], h3, h4⟩

/-- The single question produced by the C10 witness buffer. -/
def c10ExampleWR : PartialQuestion :=
  { type := "WR", title := some "T", questionText := some "Q", points := some 1 }

/-! ## Claim C5: refinement of the plain line split -/

/-- The head of a `dropWhile` result fails the dropped predicate. -/
theorem head?_dropWhile_not {α : Type} (p : α → Bool) (l : List α) :
    ∀ c, (l.dropWhile p).head? = some c → p c = false := by
  induction l with
  | nil => intro c h; simp at h
  | cons a l ih =>
    intro c h
    by_cases ha : p a
    · rw [List.dropWhile_cons_of_pos ha] at h
      exact ih c h
    · rw [List.dropWhile_cons_of_neg ha] at h
      simp at h
      rw [← h]
      simpa using ha

/-- A non-empty trimmed string is not whitespace-only. -/
theorem jsTrim_not_all_ws (r : String) (h : (jsTrim r).length > 0) :
    (jsTrim r).toList.all Char.isWhitespace = false := by
  rcases hl : (r.toList.dropWhile Char.isWhitespace).reverse.dropWhile
      Char.isWhitespace with _ | ⟨c, t⟩
  · exfalso
    have hempty : jsTrim r = "" := by
      unfold jsTrim
      rw [hl]
      rfl
    rw [hempty] at h
    simp at h
  · have hc : Char.isWhitespace c = false :=
      head?_dropWhile_not Char.isWhitespace
        (r.toList.dropWhile Char.isWhitespace).reverse c (by rw [hl]; rfl)
    have hx : (jsTrim r).toList = (c :: t).reverse := by
      unfold jsTrim
      rw [hl]
      rfl
    rw [hx]
    cases hall : ((c :: t).reverse.all Char.isWhitespace) with
    | false => rfl
    | true =>
      exfalso
      have hmem := List.all_eq_true.mp hall c (by simp)
      rw [hc] at hmem
      exact Bool.noConfusion hmem

/-- The two record filters agree on trimmed records. -/
theorem trimmed_filter_iff (r : String) :
    ((jsTrim r).length > 0 ∧ ¬ (jsTrim r).toList.all Char.isWhitespace) ↔
      (jsTrim r).length > 0 := by
  constructor
  · exact fun h => h.1
  · intro h
    refine ⟨h, ?_⟩
    intro hall
    have hfalse := jsTrim_not_all_ws r h
    rw [hall] at hfalse
    exact Bool.noConfusion hfalse

/-- Fuel-indexed core of the C5 refinement: on buffers whose quote state
is closed at every line feed, the robust record scan produces the plain
line split, up to one trailing empty segment that the plain split keeps
and the scan drops. -/
theorem recordsAux_eq_splitLines_fuel : ∀ (n : Nat) (cs : List Char),
    cs.length ≤ n → ∀ (inQ : Bool) (cur : List Char),
    noQuotedNewlineAux cs inQ = true →
    (jsSplitLinesAux cs cur = splitCsvToRecordsAux cs cur inQ ∨
     jsSplitLinesAux cs cur = splitCsvToRecordsAux cs cur inQ ++ [""]) := by
  intro n
  induction n with
  | zero =>
    intro cs hlen inQ cur _
    have hcs : cs = [] := List.length_eq_zero.mp (Nat.le_zero.mp hlen)
    subst hcs
    rcases cur with _ | ⟨c, t⟩
    · right; rfl
    · left; rfl
  | succ n ihn =>
    intro cs hlen inQ cur h
    rcases cs with _ | ⟨c, rest⟩
    · rcases cur with _ | ⟨c, t⟩
      · right; rfl
      · left; rfl
    · by_cases hq : c = '"'
      · subst hq
        rcases rest with _ | ⟨c2, rest2⟩
        · left; rfl
        · by_cases hq2 : c2 = '"'
          · subst hq2
            have h' : noQuotedNewlineAux rest2 inQ = true := h
            have hjs : jsSplitLinesAux ('"' :: '"' :: rest2) cur =
                jsSplitLinesAux rest2 ('"' :: '"' :: cur) := rfl
            have hrec : splitCsvToRecordsAux ('"' :: '"' :: rest2) cur inQ =
                splitCsvToRecordsAux rest2 ('"' :: '"' :: cur) inQ := rfl
            rw [hjs, hrec]
            exact ihn rest2 (by simp at hlen; omega) inQ ('"' :: '"' :: cur) h'
          · have h' : noQuotedNewlineAux (c2 :: rest2) (!inQ) = true := by
              simpa [noQuotedNewlineAux, hq2] using h
            have hjs : jsSplitLinesAux ('"' :: c2 :: rest2) cur =
                jsSplitLinesAux (c2 :: rest2) ('"' :: cur) := rfl
            have hrec : splitCsvToRecordsAux ('"' :: c2 :: rest2) cur inQ =
                splitCsvToRecordsAux (c2 :: rest2) ('"' :: cur) (!inQ) := by
              simp [splitCsvToRecordsAux, hq2]
            rw [hjs, hrec]
            exact ihn (c2 :: rest2) (by simp at hlen ⊢; omega) (!inQ) ('"' :: cur) h'
      · by_cases hn : c = '\n'
        · subst hn
          have hinq : inQ = false := by
            rcases inQ with _ | _
            · rfl
            · simp [noQuotedNewlineAux] at h
          subst hinq
          have h' : noQuotedNewlineAux rest false = true := by
            simpa [noQuotedNewlineAux] using h
          have hjs : jsSplitLinesAux ('\n' :: rest) cur =
              String.mk cur.reverse :: jsSplitLinesAux rest [] := rfl
          have hrec : splitCsvToRecordsAux ('\n' :: rest) cur false =
              String.mk cur.reverse :: splitCsvToRecordsAux rest [] false := by
            simp [splitCsvToRecordsAux]
          rw [hjs, hrec]
          rcases ihn rest (by simp at hlen; omega) false [] h' with heq | heq
          · left; rw [heq]
          · right; rw [heq]; rfl
        · have h' : noQuotedNewlineAux rest inQ = true := by
            simpa [noQuotedNewlineAux, hq, hn] using h
          have hjs : jsSplitLinesAux (c :: rest) cur =
              jsSplitLinesAux rest (c :: cur) := by
            simp [jsSplitLinesAux, hn]
          have hrec : splitCsvToRecordsAux (c :: rest) cur inQ =
              splitCsvToRecordsAux rest (c :: cur) inQ := by
            simp [splitCsvToRecordsAux, hq, hn]
          rw [hjs, hrec]
          exact ihn rest (by simp at hlen; omega) inQ (c :: cur) h'

/-- The C5 refinement at full fuel. -/
theorem recordsAux_eq_splitLines (cs : List Char) (inQ : Bool) (cur : List Char)
    (h : noQuotedNewlineAux cs inQ = true) :
    jsSplitLinesAux cs cur = splitCsvToRecordsAux cs cur inQ ∨
    jsSplitLinesAux cs cur = splitCsvToRecordsAux cs cur inQ ++ [""] :=
  recordsAux_eq_splitLines_fuel cs.length cs (Nat.le_refl _) inQ cur h

/-- C5: for every buffer in which no double-quoted span contains a line
feed, the quote-aware record splitter returns exactly the record sequence
of the superseded parser's strategy — a plain split on line feeds followed
by trimming and discarding empty or whitespace-only lines. -/
theorem c5_splitter_refines_plain_split (s : String)
    (h : noQuotedNewline s = true) :
    splitCsvToRecords s = oldSplitRows s := by
  unfold splitCsvToRecords oldSplitRows
  have hcongr : ∀ (l : List String),
      (l.map jsTrim).filter
          (fun r => r.length > 0 ∧ ¬ r.toList.all Char.isWhitespace) =
        (l.map jsTrim).filter (fun r => r.length > 0) := by
    intro l
    apply List.filter_congr
    intro x hx
    obtain ⟨r, _, rfl⟩ := List.mem_map.mp hx
    exact decide_eq_decide.mpr (trimmed_filter_iff r)
  rcases recordsAux_eq_splitLines s.toList false [] h with heq | heq
  · rw [heq, hcongr]
  · rw [heq, hcongr]
    have : jsTrim "" = "" := rfl
    simp [List.filter_append, this]

/-- Witness for C5 on a buffer with quoted commas but no quoted newline. -/
theorem c5_witness :
    noQuotedNewline "NewQuestion,WR\nTitle,\"A, B\"\nQuestionText,Q\n" = true ∧
    splitCsvToRecords "NewQuestion,WR\nTitle,\"A, B\"\nQuestionText,Q\n" =
      oldSplitRows "NewQuestion,WR\nTitle,\"A, B\"\nQuestionText,Q\n" :=
  ⟨by decide, c5_splitter_refines_plain_split _ (by decide)⟩

/-- Witness for C10 on a one-question buffer. -/
theorem c10_witness :
    c10ExampleWR ∈ (parseQuizCsv "NewQuestion,WR\nTitle,T\nQuestionText,Q").questions ∧
    (c10ExampleWR.title ≠ none ∧ c10ExampleWR.title ≠ some "" ∧
      c10ExampleWR.questionText ≠ none ∧ c10ExampleWR.questionText ≠ some "" ∧
      c10ExampleWR.points ≠ none ∧ c10ExampleWR.type ∈ knownTypes) :=
  ⟨by decide, c10_output_questions_complete
    "NewQuestion,WR\nTitle,T\nQuestionText,Q" c10ExampleWR (by decide)⟩

/-! ## Claim C4: quoted newlines stay inside one record -/

/-- An ordinary character is accumulated by the record scanner. -/
theorem recAux_step_plain (c : Char) (rest cur : List Char) (inQ : Bool)
    (hc1 : c ≠ '"') (hc2 : c ≠ '\n') :
    splitCsvToRecordsAux (c :: rest) cur inQ =
      splitCsvToRecordsAux rest (c :: cur) inQ := by
  simp [splitCsvToRecordsAux, hc1, hc2]

/-- A quote not followed by a second quote toggles the scanner state. -/
theorem recAux_quote (rest cur : List Char) (inQ : Bool)
    (h : rest.head? ≠ some '"') :
    splitCsvToRecordsAux ('"' :: rest) cur inQ =
      splitCsvToRecordsAux rest ('"' :: cur) (!inQ) := by
  rcases rest with _ | ⟨c, t⟩
  · rfl
  · by_cases hc : c = '"'
    · subst hc; simp at h
    · simp [splitCsvToRecordsAux, hc]

/-- A line feed inside an open quoted span is accumulated, never a
record boundary. -/
theorem recAux_newlineQ (rest cur : List Char) :
    splitCsvToRecordsAux ('\n' :: rest) cur true =
      splitCsvToRecordsAux rest ('\n' :: cur) true := rfl

/-- The scan on a final closing quote emits the accumulated record. -/
theorem recAux_final_quote (cur : List Char) :
    splitCsvToRecordsAux ['"'] cur true = [String.mk ('"' :: cur).reverse] := rfl

/-- A quote-free span inside an open quoted region is accumulated
verbatim, line feeds included. -/
theorem recAux_skipQ : ∀ (cs rest cur : List Char), '"' ∉ cs →
    splitCsvToRecordsAux (cs ++ rest) cur true =
      splitCsvToRecordsAux rest (cs.reverse ++ cur) true := by
  intro cs
  induction cs with
  | nil => intro rest cur _; simp
  | cons c t ih =>
    intro rest cur hq
    have hc1 : c ≠ '"' := by intro e; exact hq (by simp [e])
    have hq' : '"' ∉ t := fun m => hq (List.mem_cons_of_mem c m)
    by_cases hc2 : c = '\n'
    · subst hc2
      rw [List.cons_append, recAux_newlineQ, ih rest ('\n' :: cur) hq']
      simp
    · rw [List.cons_append, recAux_step_plain c (t ++ rest) cur true hc1 hc2,
        ih rest (c :: cur) hq']
      simp

/-- The record scan keeps the whole quoted-body record in one piece. -/
theorem recordsAux_quoted_newline (b1 b2 : String)
    (hq1 : '"' ∉ b1.toList) (hq2 : '"' ∉ b2.toList) :
    splitCsvToRecordsAux
        (("NewQuestion,WR\nTitle,T\nQuestionText," ++
          "\"" ++ b1 ++ "\n" ++ b2 ++ "\"").toList) [] false =
      ["NewQuestion,WR", "Title,T",
       "QuestionText," ++ "\"" ++ b1 ++ "\n" ++ b2 ++ "\""] := by
  have hsplit : ("NewQuestion,WR\nTitle,T\nQuestionText," ++
      "\"" ++ b1 ++ "\n" ++ b2 ++ "\"").toList =
      "NewQuestion,WR\nTitle,T\nQuestionText,".toList ++
        ('"' :: (b1.toList ++ '\n' :: (b2.toList ++ ['"']))) := by
    simp [String.data_append]
  rw [hsplit]
  have hpre : ∀ rest, splitCsvToRecordsAux
      ("NewQuestion,WR\nTitle,T\nQuestionText,".toList ++
        ('"' :: rest)) [] false =
      "NewQuestion,WR" :: "Title,T" ::
        splitCsvToRecordsAux ('"' :: rest)
          ("QuestionText,".toList.reverse) false := by
    intro rest; rfl
  rw [hpre]
  have hhd : (b1.toList ++ '\n' :: (b2.toList ++ ['"'])).head? ≠ some '"' := by
    rcases hb : b1.toList with _ | ⟨c, t⟩
    · simp
    · have hcne : c ≠ '"' := by
        intro e
        exact hq1 (show ('"' : Char) ∈ b1.toList by
          rw [hb, e]; exact List.mem_cons_self _ _)
      simp [hb, hcne]
  rw [recAux_quote _ _ _ hhd]
  simp only [Bool.not_false]
  rw [recAux_skipQ b1.toList _ _ hq1]
  rw [recAux_newlineQ]
  rw [recAux_skipQ b2.toList _ _ hq2]
  rw [recAux_final_quote]
  have hrev : ('"' :: (b2.toList.reverse ++ '\n' :: (b1.toList.reverse ++
      '"' :: "QuestionText,".toList.reverse))).reverse =
      ("QuestionText," ++ "\"" ++ b1 ++ "\n" ++ b2 ++ "\"").toList := by
    simp [String.data_append]
  rw [hrev]
  rfl

/-- A quote with the row tokenizer outside quotes opens a quoted span. -/
theorem rowAux_quote_open (rest cur : List Char) (acc : List String) :
    splitCsvRowAux ('"' :: rest) cur false acc = splitCsvRowAux rest cur true acc := by
  rcases rest with _ | ⟨c, t⟩
  · rfl
  · by_cases hc : c = '"'
    · subst hc; rfl
    · simp [splitCsvRowAux, hc]

/-- An ordinary character is accumulated by the row tokenizer. -/
theorem rowAux_step_plain (c : Char) (rest cur : List Char) (inQ : Bool)
    (acc : List String) (hc1 : c ≠ '"') (hc2 : ¬ (c = ',' ∧ inQ = false)) :
    splitCsvRowAux (c :: rest) cur inQ acc =
      splitCsvRowAux rest (c :: cur) inQ acc := by
  rcases inQ with _ | _
  · by_cases hc3 : c = ','
    · exact absurd ⟨hc3, rfl⟩ hc2
    · simp [splitCsvRowAux, hc1, hc3]
  · by_cases hc3 : c = ','
    · subst hc3; simp [splitCsvRowAux]
    · simp [splitCsvRowAux, hc1, hc3]

/-- The tokenizer on a final closing quote pushes the trimmed cell. -/
theorem rowAux_final_quote (cur : List Char) (acc : List String) :
    splitCsvRowAux ['"'] cur true acc = acc ++ [jsTrim (String.mk cur.reverse)] := rfl

/-- A quote-free span inside an open quoted cell is accumulated verbatim,
commas and line feeds included. -/
theorem rowAux_skipQ : ∀ (cs rest cur : List Char) (acc : List String), '"' ∉ cs →
    splitCsvRowAux (cs ++ rest) cur true acc =
      splitCsvRowAux rest (cs.reverse ++ cur) true acc := by
  intro cs
  induction cs with
  | nil => intro rest cur acc _; simp
  | cons c t ih =>
    intro rest cur acc hq
    have hc1 : c ≠ '"' := by intro e; exact hq (by simp [e])
    have hq' : '"' ∉ t := fun m => hq (List.mem_cons_of_mem c m)
    rw [List.cons_append,
      rowAux_step_plain c (t ++ rest) cur true acc hc1 (by simp),
      ih rest (c :: cur) acc hq']
    simp

/-- Tokenizing the quoted-body record yields the key cell and the trimmed
body, with the embedded newline intact. -/
theorem row_quoted_newline (b1 b2 : String)
    (hq1 : '"' ∉ b1.toList) (hq2 : '"' ∉ b2.toList) :
    splitCsvRow ("QuestionText," ++ "\"" ++ b1 ++ "\n" ++ b2 ++ "\"") =
      ["QuestionText", stripOuterQuotes (jsTrim (b1 ++ "\n" ++ b2))] := by
  have hsplit : ("QuestionText," ++ "\"" ++ b1 ++ "\n" ++ b2 ++ "\"").toList =
      "QuestionText,".toList ++ ('"' :: (b1.toList ++ '\n' :: (b2.toList ++ ['"']))) := by
    simp [String.data_append]
  unfold splitCsvRow
  rw [hsplit]
  have hpre : ∀ rest, splitCsvRowAux ("QuestionText,".toList ++ rest) [] false [] =
      splitCsvRowAux rest [] false ["QuestionText"] := by
    intro rest; rfl
  rw [hpre]
  rw [rowAux_quote_open]
  rw [rowAux_skipQ b1.toList _ _ _ hq1]
  rw [rowAux_step_plain '\n' _ _ _ _ (by decide) (by simp)]
  rw [rowAux_skipQ b2.toList _ _ _ hq2]
  rw [rowAux_final_quote]
  have hbody : String.mk (b2.toList.reverse ++ '\n' :: (b1.toList.reverse ++ [])).reverse =
      b1 ++ "\n" ++ b2 := by
    have h2 : (b2.toList.reverse ++ '\n' :: (b1.toList.reverse ++ [])).reverse =
        (b1 ++ "\n" ++ b2).toList := by
      simp [String.data_append]
    rw [h2]
    rfl
  rw [hbody]
  rfl

/-- Trimming is the identity on a string whose first and last characters
are not whitespace. -/
theorem jsTrim_noop (s : String) (c d : Char) (t : List Char)
    (h1 : s.toList = c :: t) (hc : c.isWhitespace = false)
    (h2 : s.toList.getLast? = some d) (hd : d.isWhitespace = false) :
    jsTrim s = s := by
  unfold jsTrim
  rw [h1, List.dropWhile_cons_of_neg (by simp [hc])]
  rcases hrev : (c :: t).reverse with _ | ⟨e, u⟩
  · exact absurd hrev (by simp)
  · have he : e.isWhitespace = false := by
      have hh := List.head?_reverse (c :: t)
      rw [hrev] at hh
      rw [h1] at h2
      rw [h2] at hh
      have : e = d := Option.some.inj hh
      rw [this, hd]
    rw [List.dropWhile_cons_of_neg (by simp [he])]
    rw [← hrev]
    rw [List.reverse_reverse]
    rw [← h1]
    rfl

/-- A record whose first character is not whitespace survives the record
filter. -/
theorem record_filter_keep (s : String) (c : Char) (t : List Char)
    (h : s.toList = c :: t) (hc : c.isWhitespace = false) :
    s.length > 0 ∧ ¬ s.toList.all Char.isWhitespace := by
  constructor
  · have hl : s.length = s.toList.length := rfl
    rw [hl, h]
    simp
  · rw [h]
    intro hall
    have hmem := List.all_eq_true.mp hall c (by simp)
    rw [hc] at hmem
    exact Bool.noConfusion hmem

/-- The in-progress question after the first two C4 records. -/
def c4q2 : PartialQuestion := { type := "WR", title := some "T", points := some 1 }

/-- The parsed C4 question carrying the multi-line body. -/
def c4q3 (body : String) : PartialQuestion :=
  { type := "WR", title := some "T", questionText := some body, points := some 1 }

/-- C4: the record splitter never treats a line feed inside an open quoted
span as a record boundary.  For any quote-free body lines b1 and b2 whose
join is already trimmed, the three-row buffer whose question body is the
quoted text b1-newline-b2 splits into exactly three records — the
multi-line quoted record stays whole — the tokenizer returns the embedded
newline intact in the body cell, and the parsed question's questionText
field round-trips the body unchanged. -/
theorem c4_quoted_newline_one_record (b1 b2 : String)
    (hq1 : '"' ∉ b1.toList) (hq2 : '"' ∉ b2.toList)
    (htrim : jsTrim (b1 ++ "\n" ++ b2) = b1 ++ "\n" ++ b2) :
    splitCsvToRecords ("NewQuestion,WR\nTitle,T\nQuestionText," ++
        "\"" ++ b1 ++ "\n" ++ b2 ++ "\"") =
      ["NewQuestion,WR", "Title,T",
       "QuestionText," ++ "\"" ++ b1 ++ "\n" ++ b2 ++ "\""] ∧
    splitCsvRow ("QuestionText," ++ "\"" ++ b1 ++ "\n" ++ b2 ++ "\"") =
      ["QuestionText", b1 ++ "\n" ++ b2] ∧
    (parseQuizCsv ("NewQuestion,WR\nTitle,T\nQuestionText," ++
        "\"" ++ b1 ++ "\n" ++ b2 ++ "\"")).questions =
      [{ type := "WR", title := some "T",
         questionText := some (b1 ++ "\n" ++ b2), points := some 1 }] := by
  have hbody_list : (b1 ++ "\n" ++ b2).toList = b1.toList ++ '\n' :: b2.toList := by
    simp [String.data_append]
  have hbody_ne : (b1 ++ "\n" ++ b2) ≠ "" := by
    intro e
    have := congrArg String.toList e
    rw [hbody_list] at this
    simp at this
  have hbody_hd : ((b1 ++ "\n" ++ b2).toList).head? ≠ some '"' := by
    rw [hbody_list]
    rcases hb : b1.toList with _ | ⟨c, t⟩
    · simp
    · have hcne : c ≠ '"' := by
        intro e
        exact hq1 (show ('"' : Char) ∈ b1.toList by
          rw [hb, e]; exact List.mem_cons_self _ _)
      simp [hb, hcne]
  have hstrip : stripOuterQuotes (b1 ++ "\n" ++ b2) = b1 ++ "\n" ++ b2 := by
    unfold stripOuterQuotes
    rw [if_neg (fun hcontra => hbody_hd hcontra.1)]
  have hrow : splitCsvRow ("QuestionText," ++ "\"" ++ b1 ++ "\n" ++ b2 ++ "\"") =
      ["QuestionText", b1 ++ "\n" ++ b2] := by
    rw [row_quoted_newline b1 b2 hq1 hq2, htrim, hstrip]
  -- the third record, as a string, with its list shapes
  have hrect : ("QuestionText," ++ "\"" ++ b1 ++ "\n" ++ b2 ++ "\"").toList =
      'Q' :: ("uestionText,".toList ++ ('"' :: (b1.toList ++ '\n' :: (b2.toList ++ ['"'])))) := by
    simp [String.data_append]
  have hrecl : ("QuestionText," ++ "\"" ++ b1 ++ "\n" ++ b2 ++ "\"").toList =
      ("QuestionText,".toList ++ '"' :: b1.toList ++ '\n' :: b2.toList) ++ ['"'] := by
    simp [String.data_append]
  have hreclast : (("QuestionText," ++ "\"" ++ b1 ++ "\n" ++ b2 ++ "\"").toList).getLast? =
      some '"' := by
    rw [hrecl]
    exact List.getLast?_concat _
  have htrimrec : jsTrim ("QuestionText," ++ "\"" ++ b1 ++ "\n" ++ b2 ++ "\"") =
      "QuestionText," ++ "\"" ++ b1 ++ "\n" ++ b2 ++ "\"" :=
    jsTrim_noop _ 'Q' '"' _ hrect (by decide) hreclast (by decide)
  have hrecords : splitCsvToRecords ("NewQuestion,WR\nTitle,T\nQuestionText," ++
      "\"" ++ b1 ++ "\n" ++ b2 ++ "\"") =
      ["NewQuestion,WR", "Title,T",
       "QuestionText," ++ "\"" ++ b1 ++ "\n" ++ b2 ++ "\""] := by
    unfold splitCsvToRecords
    rw [recordsAux_quoted_newline b1 b2 hq1 hq2]
    rw [List.map_cons, List.map_cons, List.map_cons, List.map_nil]
    rw [show jsTrim "NewQuestion,WR" = "NewQuestion,WR" from by decide]
    rw [show jsTrim "Title,T" = "Title,T" from by decide]
    rw [htrimrec]
    apply List.filter_eq_self.mpr
    intro a ha
    simp only [List.mem_cons, List.mem_singleton, List.not_mem_nil, or_false] at ha
    rcases ha with ha | ha | ha
    · rw [ha]; decide
    · rw [ha]; decide
    · rw [ha]
      exact decide_eq_true (record_filter_keep _ 'Q' _ hrect (by decide))
  refine ⟨hrecords, hrow, ?_⟩
  unfold parseQuizCsv parseQuizCsvFull
  rw [hrecords]
  have hrun : runRecords 1 ["NewQuestion,WR", "Title,T",
      "QuestionText," ++ "\"" ++ b1 ++ "\n" ++ b2 ++ "\""] initState =
      processRecord 3 ("QuestionText," ++ "\"" ++ b1 ++ "\n" ++ b2 ++ "\"")
        (processRecord 2 "Title,T" (processRecord 1 "NewQuestion,WR" initState)) := rfl
  rw [hrun]
  have h1 : processRecord 1 "NewQuestion,WR" initState =
      ⟨[], some (freshQuestion "WR"), []⟩ := by decide
  have h2 : processRecord 2 "Title,T" ⟨[], some (freshQuestion "WR"), []⟩ =
      ⟨[], some c4q2, []⟩ := by decide
  rw [h1, h2]
  have h3 : processRecord 3 ("QuestionText," ++ "\"" ++ b1 ++ "\n" ++ b2 ++ "\"")
      ⟨[], some c4q2, []⟩ = ⟨[], some (c4q3 (b1 ++ "\n" ++ b2)), []⟩ := by
    unfold processRecord
    rw [hrow]
    have hkey : jsToLower (getValue ["QuestionText", b1 ++ "\n" ++ b2] 0 "") =
        "questiontext" := rfl
    rw [processTokenizedRecord_other_some 3 ["QuestionText", b1 ++ "\n" ++ b2]
      ⟨[], some c4q2, []⟩ c4q2 (by rw [hkey]; decide) rfl]
    rw [hkey]
    have hval : getValue ["QuestionText", b1 ++ "\n" ++ b2] 1 "" =
        b1 ++ "\n" ++ b2 := by
      simp [getValue, hbody_ne]
    simp [processKeyed, hval, c4q2, c4q3]
  rw [h3]
  have hvalid : questionIsValid (c4q3 (b1 ++ "\n" ++ b2)) = true := by
    simp [questionIsValid, baseValid, truthy, c4q3, hbody_ne]
  rw [finalizeLast_some _ _ rfl, if_pos hvalid]
  simp [c4q3]

/-- Witness for C4 at the specification's example body. -/
theorem c4_witness :
    ('"' ∉ "Line one".toList) ∧ ('"' ∉ "Line two".toList) ∧
    jsTrim ("Line one" ++ "\n" ++ "Line two") = "Line one" ++ "\n" ++ "Line two" ∧
    (parseQuizCsv ("NewQuestion,WR\nTitle,T\nQuestionText," ++
        "\"" ++ "Line one" ++ "\n" ++ "Line two" ++ "\"")).questions =
      [{ type := "WR", title := some "T",
         questionText := some ("Line one" ++ "\n" ++ "Line two"), points := some 1 }] :=
  ⟨by decide, by decide, by decide,
    (c4_quoted_newline_one_record "Line one" "Line two"
      (by decide) (by decide) (by decide)).2.2⟩

/-! ## Claim C3, amended part: simulation up to record-index shift -/

/-- Shift the internal record index of a TF option. -/
def shiftTF (d : Nat) (o : TFOption) : TFOption :=
  { o with definedLine := o.definedLine + d }

/-- Shift all internal record indices of an in-progress question. -/
def shiftQ (d : Nat) (q : PartialQuestion) : PartialQuestion :=
  { q with trueOption := q.trueOption.map (shiftTF d),
           falseOption := q.falseOption.map (shiftTF d) }

/-- Erase the internal record indices of a TF option. -/
def eraseTF (o : TFOption) : TFOption := { o with definedLine := 0 }

/-- Erase all internal record indices of a question: the part of a parsed
question that does not depend on absolute record positions. -/
def eraseQ (q : PartialQuestion) : PartialQuestion :=
  { q with trueOption := q.trueOption.map eraseTF,
           falseOption := q.falseOption.map eraseTF }

/-- Shifting leaves a fresh question unchanged. -/
theorem shiftQ_fresh (d : Nat) (t : String) :
    shiftQ d (freshQuestion t) = freshQuestion t := rfl

/-- The base check ignores the internal record indices. -/
theorem baseValid_shiftQ (d : Nat) (q : PartialQuestion) :
    baseValid (shiftQ d q) = baseValid q := rfl

/-- The full validation ignores the internal record indices. -/
theorem questionIsValid_shiftQ (d : Nat) (q : PartialQuestion) :
    questionIsValid (shiftQ d q) = questionIsValid q := by
  unfold questionIsValid
  rcases hto : q.trueOption with _ | o <;> rcases hfo : q.falseOption with _ | o2 <;>
    simp [shiftQ, baseValid, truthy, hto, hfo]

/-- Erasure absorbs a shift. -/
theorem eraseQ_shiftQ (d : Nat) (q : PartialQuestion) :
    eraseQ (shiftQ d q) = eraseQ q := by
  rcases hto : q.trueOption with _ | o <;> rcases hfo : q.falseOption with _ | o2 <;>
    simp [shiftQ, eraseQ, shiftTF, eraseTF, hto, hfo]

/-- The `newquestion` transition for a known type code. -/
theorem processTokenizedRecord_newq_known (n : Nat) (row : List String)
    (st : ParseState) (hk : jsToLower (getValue row 0 "") = "newquestion")
    (hkn : getValue row 1 "" ∈ knownTypes) :
    processTokenizedRecord n row st =
      { midstreamFinalize n st with
          current := some (freshQuestion (getValue row 1 "")) } := by
  unfold processTokenizedRecord
  rw [if_pos hk, if_pos hkn]

/-- The `newquestion` transition for an unknown type code. -/
theorem processTokenizedRecord_newq_unknown (n : Nat) (row : List String)
    (st : ParseState) (hk : jsToLower (getValue row 0 "") = "newquestion")
    (hkn : getValue row 1 "" ∉ knownTypes) :
    processTokenizedRecord n row st =
      { midstreamFinalize n st with
          current := none,
          diags := (midstreamFinalize n st).diags ++
            [.unknownQuestionType n (getValue row 1 "")] } := by
  unfold processTokenizedRecord
  rw [if_pos hk, if_neg hkn]

/-- The record loop splits over list append, advancing the record
counter. -/
theorem runRecords_append (xs : List String) : ∀ (ys : List String) (n : Nat)
    (st : ParseState), runRecords n (xs ++ ys) st =
      runRecords (n + xs.length) ys (runRecords n xs st) := by
  induction xs with
  | nil => intro ys n st; simp [runRecords]
  | cons x xs ih =>
    intro ys n st
    rw [List.cons_append]
    show runRecords (n + 1) (xs ++ ys) (processRecord n x st) = _
    rw [ih ys (n + 1) (processRecord n x st)]
    have : n + 1 + xs.length = n + (xs.length + 1) := by omega
    rw [this]
    rfl

/-- The feedback handler commutes with an index shift on questions with
positive TF record indices. -/
theorem applyFeedback_shiftQ (d : Nat) (q : PartialQuestion) (v : String)
    (hq : definedLinesPositive q = true) :
    applyFeedback (shiftQ d q) v = shiftQ d (applyFeedback q v) := by
  by_cases hMC : q.type = "MC"
  · by_cases ho : q.options = [] <;>
      simp [applyFeedback, shiftQ, hMC, ho]
  · by_cases hMS : q.type = "MS"
    · by_cases ho : q.msOptions = [] <;>
        simp [applyFeedback, shiftQ, hMC, hMS, ho]
    · by_cases hTF : q.type = "TF"
      · rcases hfo : q.falseOption with _ | fo <;> rcases htr : q.trueOption with _ | tr
        · simp [applyFeedback, shiftQ, hMC, hMS, hTF, hfo, htr]
        · simp [applyFeedback, shiftQ, hMC, hMS, hTF, hfo, htr, shiftTF]
        · simp [applyFeedback, shiftQ, hMC, hMS, hTF, hfo, htr, shiftTF]
        · simp [definedLinesPositive, hfo, htr] at hq
          obtain ⟨htrpos, hfopos⟩ := hq
          by_cases hgt : fo.definedLine > tr.definedLine
          · have hL : (shiftTF d fo).definedLine ≠ 0 ∧ (shiftTF d tr).definedLine ≠ 0 ∧
                (shiftTF d fo).definedLine > (shiftTF d tr).definedLine := by
              refine ⟨?_, ?_, ?_⟩ <;> simp [shiftTF] <;> omega
            have hR : fo.definedLine ≠ 0 ∧ tr.definedLine ≠ 0 ∧
                fo.definedLine > tr.definedLine := ⟨by omega, by omega, hgt⟩
            simp [applyFeedback, shiftQ, hMC, hMS, hTF, hfo, htr, hL, hR, shiftTF]
          · have hL : ¬ ((shiftTF d fo).definedLine ≠ 0 ∧ (shiftTF d tr).definedLine ≠ 0 ∧
                (shiftTF d fo).definedLine > (shiftTF d tr).definedLine) := by
              intro hcontra
              have hcc := hcontra.2.2
              simp [shiftTF] at hcc
              omega
            have hR : ¬ (fo.definedLine ≠ 0 ∧ tr.definedLine ≠ 0 ∧
                fo.definedLine > tr.definedLine) := fun hcontra => absurd hcontra.2.2 hgt
            simp [applyFeedback, shiftQ, hMC, hMS, hTF, hfo, htr, hL, hR, shiftTF]
            intro h1x h2x h3x
            exact absurd h3x hgt
      · by_cases hO : q.type = "O"
        · by_cases hi : q.items = [] <;>
            simp [applyFeedback, shiftQ, hMC, hMS, hTF, hO, hi]
        · simp [applyFeedback, shiftQ, hMC, hMS, hTF, hO]

/-- The keyed row handler commutes with an index shift: running it at a
shifted record number on a shifted question gives the shifted result. -/
theorem processKeyed_shiftQ (n d : Nat) (k : String) (row : List String)
    (q : PartialQuestion) (hq : definedLinesPositive q = true) :
    (processKeyed (n + d) k row (shiftQ d q)).1 =
      shiftQ d (processKeyed n k row q).1 := by
  by_cases hk1 : k = "id"
  · simp [processKeyed, shiftQ, shiftTF, hk1]
  by_cases hk2 : k = "title"
  · simp [processKeyed, shiftQ, shiftTF, hk1, hk2]
  by_cases hk3 : k = "questiontext"
  · simp [processKeyed, shiftQ, shiftTF, hk1, hk2, hk3]
  by_cases hk4 : k = "points"
  · simp [processKeyed, shiftQ, shiftTF, hk1, hk2, hk3, hk4]
  by_cases hk5 : k = "difficulty"
  · simp [processKeyed, shiftQ, shiftTF, hk1, hk2, hk3, hk4, hk5]
  by_cases hk6 : k = "image"
  · simp [processKeyed, shiftQ, shiftTF, hk1, hk2, hk3, hk4, hk5, hk6]
  by_cases hk7 : k = "hint"
  · simp [processKeyed, shiftQ, shiftTF, hk1, hk2, hk3, hk4, hk5, hk6, hk7]
  by_cases hk8 : k = "feedback"
  · simp [processKeyed, hk1, hk2, hk3, hk4, hk5, hk6, hk7, hk8, applyFeedback_shiftQ d q (getValue row 1 "") hq]
  by_cases hk9 : k = "initialtext"
  · simp [processKeyed, shiftQ, shiftTF, hk1, hk2, hk3, hk4, hk5, hk6, hk7, hk8, hk9]
  by_cases hk10 : k = "answerkey"
  · simp [processKeyed, shiftQ, shiftTF, hk1, hk2, hk3, hk4, hk5, hk6, hk7, hk8, hk9, hk10]
  by_cases hk11 : k = "inputbox"
  · simp [processKeyed, shiftQ, shiftTF, hk1, hk2, hk3, hk4, hk5, hk6, hk7, hk8, hk9, hk10, hk11]
  by_cases hk12 : k = "answer"
  · by_cases hty : q.type = "SA"
    · simp [processKeyed, shiftQ, shiftTF, hk1, hk2, hk3, hk4, hk5, hk6, hk7, hk8, hk9, hk10, hk11, hk12, hty]
    · simp [processKeyed, shiftQ, shiftTF, hk1, hk2, hk3, hk4, hk5, hk6, hk7, hk8, hk9, hk10, hk11, hk12, hty]
  by_cases hk13 : k = "scoring"
  · by_cases hty : q.type = "M" ∨ q.type = "MS" ∨ q.type = "O"
    · simp [processKeyed, shiftQ, shiftTF, hk1, hk2, hk3, hk4, hk5, hk6, hk7, hk8, hk9, hk10, hk11, hk12, hk13, hty]
    · simp [processKeyed, shiftQ, shiftTF, hk1, hk2, hk3, hk4, hk5, hk6, hk7, hk8, hk9, hk10, hk11, hk12, hk13, hty]
  by_cases hk14 : k = "choice"
  · by_cases hty : q.type = "M"
    · by_cases hnum : safeParseInt (getValue row 1 "") 0 ≤ 0
      · simp [processKeyed, shiftQ, shiftTF, hk1, hk2, hk3, hk4, hk5, hk6, hk7, hk8, hk9, hk10, hk11, hk12, hk13, hk14, hty, hnum]
      · by_cases hfind : (q.pairs.find? (fun p => p.choiceNo = safeParseInt (getValue row 1 "") 0)).isSome
        · simp [processKeyed, shiftQ, shiftTF, hk1, hk2, hk3, hk4, hk5, hk6, hk7, hk8, hk9, hk10, hk11, hk12, hk13, hk14, hty, hnum, hfind]
        · simp [processKeyed, shiftQ, shiftTF, hk1, hk2, hk3, hk4, hk5, hk6, hk7, hk8, hk9, hk10, hk11, hk12, hk13, hk14, hty, hnum, hfind]
    · simp [processKeyed, shiftQ, shiftTF, hk1, hk2, hk3, hk4, hk5, hk6, hk7, hk8, hk9, hk10, hk11, hk12, hk13, hk14, hty]
  by_cases hk15 : k = "match"
  · by_cases hty : q.type = "M"
    · by_cases hnum : safeParseInt (getValue row 1 "") 0 ≤ 0
      · simp [processKeyed, shiftQ, shiftTF, hk1, hk2, hk3, hk4, hk5, hk6, hk7, hk8, hk9, hk10, hk11, hk12, hk13, hk14, hk15, hty, hnum]
      · by_cases hfind : (q.pairs.find? (fun p => p.choiceNo = safeParseInt (getValue row 1 "") 0)).isSome
        · simp [processKeyed, shiftQ, shiftTF, hk1, hk2, hk3, hk4, hk5, hk6, hk7, hk8, hk9, hk10, hk11, hk12, hk13, hk14, hk15, hty, hnum, hfind]
        · simp [processKeyed, shiftQ, shiftTF, hk1, hk2, hk3, hk4, hk5, hk6, hk7, hk8, hk9, hk10, hk11, hk12, hk13, hk14, hk15, hty, hnum, hfind]
    · simp [processKeyed, shiftQ, shiftTF, hk1, hk2, hk3, hk4, hk5, hk6, hk7, hk8, hk9, hk10, hk11, hk12, hk13, hk14, hk15, hty]
  by_cases hk16 : k = "option"
  · by_cases hty : q.type = "MC"
    · simp [processKeyed, shiftQ, shiftTF, hk1, hk2, hk3, hk4, hk5, hk6, hk7, hk8, hk9, hk10, hk11, hk12, hk13, hk14, hk15, hk16, hty]
    · by_cases hty2 : q.type = "MS"
      · simp [processKeyed, shiftQ, shiftTF, hk1, hk2, hk3, hk4, hk5, hk6, hk7, hk8, hk9, hk10, hk11, hk12, hk13, hk14, hk15, hk16, hty, hty2]
      · simp [processKeyed, shiftQ, shiftTF, hk1, hk2, hk3, hk4, hk5, hk6, hk7, hk8, hk9, hk10, hk11, hk12, hk13, hk14, hk15, hk16, hty, hty2]
  by_cases hk17 : k = "true"
  · by_cases hty : q.type = "TF"
    · simp [processKeyed, shiftQ, shiftTF, hk1, hk2, hk3, hk4, hk5, hk6, hk7, hk8, hk9, hk10, hk11, hk12, hk13, hk14, hk15, hk16, hk17, hty]
    · simp [processKeyed, shiftQ, shiftTF, hk1, hk2, hk3, hk4, hk5, hk6, hk7, hk8, hk9, hk10, hk11, hk12, hk13, hk14, hk15, hk16, hk17, hty]
  by_cases hk18 : k = "false"
  · by_cases hty : q.type = "TF"
    · simp [processKeyed, shiftQ, shiftTF, hk1, hk2, hk3, hk4, hk5, hk6, hk7, hk8, hk9, hk10, hk11, hk12, hk13, hk14, hk15, hk16, hk17, hk18, hty]
    · simp [processKeyed, shiftQ, shiftTF, hk1, hk2, hk3, hk4, hk5, hk6, hk7, hk8, hk9, hk10, hk11, hk12, hk13, hk14, hk15, hk16, hk17, hk18, hty]
  by_cases hk19 : k = "item"
  · by_cases hty : q.type = "O"
    · simp [processKeyed, shiftQ, shiftTF, hk1, hk2, hk3, hk4, hk5, hk6, hk7, hk8, hk9, hk10, hk11, hk12, hk13, hk14, hk15, hk16, hk17, hk18, hk19, hty]
    · simp [processKeyed, shiftQ, shiftTF, hk1, hk2, hk3, hk4, hk5, hk6, hk7, hk8, hk9, hk10, hk11, hk12, hk13, hk14, hk15, hk16, hk17, hk18, hk19, hty]
  by_cases hlast : k ≠ "" ∧ jsTrim k ≠ ""
  · simp [processKeyed, shiftQ, shiftTF, hk1, hk2, hk3, hk4, hk5, hk6, hk7, hk8, hk9, hk10, hk11, hk12, hk13, hk14, hk15, hk16, hk17, hk18, hk19, hlast]
  · simp [processKeyed, shiftQ, shiftTF, hk1, hk2, hk3, hk4, hk5, hk6, hk7, hk8, hk9, hk10, hk11, hk12, hk13, hk14, hk15, hk16, hk17, hk18, hk19, hlast]

/-- The feedback handler keeps TF record indices positive. -/
theorem applyFeedback_linesPos (q : PartialQuestion) (v : String)
    (hq : definedLinesPositive q = true) :
    definedLinesPositive (applyFeedback q v) = true := by
  by_cases hMC : q.type = "MC"
  · by_cases ho : q.options = [] <;>
      simpa [applyFeedback, definedLinesPositive, hMC, ho] using hq
  · by_cases hMS : q.type = "MS"
    · by_cases ho : q.msOptions = [] <;>
        simpa [applyFeedback, definedLinesPositive, hMC, hMS, ho] using hq
    · by_cases hTF : q.type = "TF"
      · rcases hfo : q.falseOption with _ | fo <;> rcases htr : q.trueOption with _ | tr <;>
          simp [definedLinesPositive, hfo, htr] at hq <;>
          simp [applyFeedback, definedLinesPositive, hMC, hMS, hTF, hfo, htr]
        · exact hq
        · exact hq
        · by_cases hgt : fo.definedLine ≠ 0 ∧ tr.definedLine ≠ 0 ∧
              fo.definedLine > tr.definedLine
          · simp [hgt]
            exact ⟨hq.1, hq.2⟩
          · simp [hgt]
            exact ⟨hq.1, hq.2⟩
      · by_cases hO : q.type = "O"
        · by_cases hi : q.items = [] <;>
            simpa [applyFeedback, definedLinesPositive, hMC, hMS, hTF, hO, hi] using hq
        · simpa [applyFeedback, definedLinesPositive, hMC, hMS, hTF, hO] using hq

/-- The keyed row handler keeps TF record indices positive when the
record number is positive. -/
theorem processKeyed_linesPos (n : Nat) (k : String) (row : List String)
    (q : PartialQuestion) (hn : 1 ≤ n) (hq : definedLinesPositive q = true) :
    definedLinesPositive (processKeyed n k row q).1 = true := by
  by_cases hk1 : k = "id"
  · simpa [processKeyed, definedLinesPositive, hk1] using hq
  by_cases hk2 : k = "title"
  · simpa [processKeyed, definedLinesPositive, hk1, hk2] using hq
  by_cases hk3 : k = "questiontext"
  · simpa [processKeyed, definedLinesPositive, hk1, hk2, hk3] using hq
  by_cases hk4 : k = "points"
  · simpa [processKeyed, definedLinesPositive, hk1, hk2, hk3, hk4] using hq
  by_cases hk5 : k = "difficulty"
  · simpa [processKeyed, definedLinesPositive, hk1, hk2, hk3, hk4, hk5] using hq
  by_cases hk6 : k = "image"
  · simpa [processKeyed, definedLinesPositive, hk1, hk2, hk3, hk4, hk5, hk6] using hq
  by_cases hk7 : k = "hint"
  · simpa [processKeyed, definedLinesPositive, hk1, hk2, hk3, hk4, hk5, hk6, hk7] using hq
  by_cases hk8 : k = "feedback"
  · simpa [processKeyed, hk1, hk2, hk3, hk4, hk5, hk6, hk7, hk8] using applyFeedback_linesPos q (getValue row 1 "") hq
  by_cases hk9 : k = "initialtext"
  · simpa [processKeyed, definedLinesPositive, hk1, hk2, hk3, hk4, hk5, hk6, hk7, hk8, hk9] using hq
  by_cases hk10 : k = "answerkey"
  · simpa [processKeyed, definedLinesPositive, hk1, hk2, hk3, hk4, hk5, hk6, hk7, hk8, hk9, hk10] using hq
  by_cases hk11 : k = "inputbox"
  · simpa [processKeyed, definedLinesPositive, hk1, hk2, hk3, hk4, hk5, hk6, hk7, hk8, hk9, hk10, hk11] using hq
  by_cases hk12 : k = "answer"
  · by_cases hty : q.type = "SA"
    · simpa [processKeyed, definedLinesPositive, hk1, hk2, hk3, hk4, hk5, hk6, hk7, hk8, hk9, hk10, hk11, hk12, hty] using hq
    · simpa [processKeyed, definedLinesPositive, hk1, hk2, hk3, hk4, hk5, hk6, hk7, hk8, hk9, hk10, hk11, hk12, hty] using hq
  by_cases hk13 : k = "scoring"
  · by_cases hty : q.type = "M" ∨ q.type = "MS" ∨ q.type = "O"
    · simpa [processKeyed, definedLinesPositive, hk1, hk2, hk3, hk4, hk5, hk6, hk7, hk8, hk9, hk10, hk11, hk12, hk13, hty] using hq
    · simpa [processKeyed, definedLinesPositive, hk1, hk2, hk3, hk4, hk5, hk6, hk7, hk8, hk9, hk10, hk11, hk12, hk13, hty] using hq
  by_cases hk14 : k = "choice"
  · by_cases hty : q.type = "M"
    · by_cases hnum : safeParseInt (getValue row 1 "") 0 ≤ 0
      · simpa [processKeyed, definedLinesPositive, hk1, hk2, hk3, hk4, hk5, hk6, hk7, hk8, hk9, hk10, hk11, hk12, hk13, hk14, hty, hnum] using hq
      · by_cases hfind : (q.pairs.find? (fun p => p.choiceNo = safeParseInt (getValue row 1 "") 0)).isSome
        · simpa [processKeyed, definedLinesPositive, hk1, hk2, hk3, hk4, hk5, hk6, hk7, hk8, hk9, hk10, hk11, hk12, hk13, hk14, hty, hnum, hfind] using hq
        · simpa [processKeyed, definedLinesPositive, hk1, hk2, hk3, hk4, hk5, hk6, hk7, hk8, hk9, hk10, hk11, hk12, hk13, hk14, hty, hnum, hfind] using hq
    · simpa [processKeyed, definedLinesPositive, hk1, hk2, hk3, hk4, hk5, hk6, hk7, hk8, hk9, hk10, hk11, hk12, hk13, hk14, hty] using hq
  by_cases hk15 : k = "match"
  · by_cases hty : q.type = "M"
    · by_cases hnum : safeParseInt (getValue row 1 "") 0 ≤ 0
      · simpa [processKeyed, definedLinesPositive, hk1, hk2, hk3, hk4, hk5, hk6, hk7, hk8, hk9, hk10, hk11, hk12, hk13, hk14, hk15, hty, hnum] using hq
      · by_cases hfind : (q.pairs.find? (fun p => p.choiceNo = safeParseInt (getValue row 1 "") 0)).isSome
        · simpa [processKeyed, definedLinesPositive, hk1, hk2, hk3, hk4, hk5, hk6, hk7, hk8, hk9, hk10, hk11, hk12, hk13, hk14, hk15, hty, hnum, hfind] using hq
        · simpa [processKeyed, definedLinesPositive, hk1, hk2, hk3, hk4, hk5, hk6, hk7, hk8, hk9, hk10, hk11, hk12, hk13, hk14, hk15, hty, hnum, hfind] using hq
    · simpa [processKeyed, definedLinesPositive, hk1, hk2, hk3, hk4, hk5, hk6, hk7, hk8, hk9, hk10, hk11, hk12, hk13, hk14, hk15, hty] using hq
  by_cases hk16 : k = "option"
  · by_cases hty : q.type = "MC"
    · simpa [processKeyed, definedLinesPositive, hk1, hk2, hk3, hk4, hk5, hk6, hk7, hk8, hk9, hk10, hk11, hk12, hk13, hk14, hk15, hk16, hty] using hq
    · by_cases hty2 : q.type = "MS"
      · simpa [processKeyed, definedLinesPositive, hk1, hk2, hk3, hk4, hk5, hk6, hk7, hk8, hk9, hk10, hk11, hk12, hk13, hk14, hk15, hk16, hty, hty2] using hq
      · simpa [processKeyed, definedLinesPositive, hk1, hk2, hk3, hk4, hk5, hk6, hk7, hk8, hk9, hk10, hk11, hk12, hk13, hk14, hk15, hk16, hty, hty2] using hq
  by_cases hk17 : k = "true"
  · by_cases hty : q.type = "TF"
    · simp [definedLinesPositive] at hq
      simp [processKeyed, definedLinesPositive, hk1, hk2, hk3, hk4, hk5, hk6, hk7, hk8, hk9, hk10, hk11, hk12, hk13, hk14, hk15, hk16, hk17, hty]
      exact ⟨by omega, hq.2⟩
    · simpa [processKeyed, definedLinesPositive, hk1, hk2, hk3, hk4, hk5, hk6, hk7, hk8, hk9, hk10, hk11, hk12, hk13, hk14, hk15, hk16, hk17, hty] using hq
  by_cases hk18 : k = "false"
  · by_cases hty : q.type = "TF"
    · simp [definedLinesPositive] at hq
      simp [processKeyed, definedLinesPositive, hk1, hk2, hk3, hk4, hk5, hk6, hk7, hk8, hk9, hk10, hk11, hk12, hk13, hk14, hk15, hk16, hk17, hk18, hty]
      exact ⟨hq.1, by omega⟩
    · simpa [processKeyed, definedLinesPositive, hk1, hk2, hk3, hk4, hk5, hk6, hk7, hk8, hk9, hk10, hk11, hk12, hk13, hk14, hk15, hk16, hk17, hk18, hty] using hq
  by_cases hk19 : k = "item"
  · by_cases hty : q.type = "O"
    · simpa [processKeyed, definedLinesPositive, hk1, hk2, hk3, hk4, hk5, hk6, hk7, hk8, hk9, hk10, hk11, hk12, hk13, hk14, hk15, hk16, hk17, hk18, hk19, hty] using hq
    · simpa [processKeyed, definedLinesPositive, hk1, hk2, hk3, hk4, hk5, hk6, hk7, hk8, hk9, hk10, hk11, hk12, hk13, hk14, hk15, hk16, hk17, hk18, hk19, hty] using hq
  by_cases hlast : k ≠ "" ∧ jsTrim k ≠ ""
  · simpa [processKeyed, definedLinesPositive, hk1, hk2, hk3, hk4, hk5, hk6, hk7, hk8, hk9, hk10, hk11, hk12, hk13, hk14, hk15, hk16, hk17, hk18, hk19, hlast] using hq
  · simpa [processKeyed, definedLinesPositive, hk1, hk2, hk3, hk4, hk5, hk6, hk7, hk8, hk9, hk10, hk11, hk12, hk13, hk14, hk15, hk16, hk17, hk18, hk19, hlast] using hq


/-- A fresh question has no TF options, hence trivially positive indices. -/
theorem definedLinesPositive_fresh (t : String) :
    definedLinesPositive (freshQuestion t) = true := rfl

/-- Mid-stream finalization with no question in progress is a no-op. -/
theorem midstreamFinalize_none (n : Nat) (st : ParseState)
    (hc : st.current = none) : midstreamFinalize n st = st := by
  unfold midstreamFinalize
  rw [hc]

/-- One unfolding step of the record loop. -/
theorem runRecords_cons (n : Nat) (r : String) (rs : List String)
    (st : ParseState) :
    runRecords n (r :: rs) st = runRecords (n + 1) rs (processRecord n r st) :=
  rfl

/-- Mid-stream finalization only appends to the diagnostic channel. -/
theorem midstreamFinalize_diags_ext (n : Nat) (st : ParseState) :
    ∃ t, (midstreamFinalize n st).diags = st.diags ++ t := by
  unfold midstreamFinalize
  rcases hc : st.current with _ | cq
  · exact ⟨[], by simp⟩
  · by_cases hb : baseValid cq
    · exact ⟨[], by simp [hb]⟩
    · exact ⟨[Diag.skippedIncompleteMidstream n cq.title], by simp [hb]⟩

/-- One record step only appends to the diagnostic channel. -/
theorem processTokenizedRecord_diags_ext (n : Nat) (row : List String)
    (st : ParseState) :
    ∃ t, (processTokenizedRecord n row st).diags = st.diags ++ t := by
  obtain ⟨t0, ht0⟩ := midstreamFinalize_diags_ext n st
  by_cases hk : jsToLower (getValue row 0 "") = "newquestion"
  · by_cases hkn : getValue row 1 "" ∈ knownTypes
    · rw [processTokenizedRecord_newq_known n row st hk hkn]
      exact ⟨t0, ht0⟩
    · rw [processTokenizedRecord_newq_unknown n row st hk hkn]
      exact ⟨t0 ++ [Diag.unknownQuestionType n (getValue row 1 "")], by
        show (midstreamFinalize n st).diags ++ _ = _
        rw [ht0, List.append_assoc]⟩
  · rcases hc : st.current with _ | cq
    · rw [processTokenizedRecord_other_none n row st hk hc]
      exact ⟨[], by simp⟩
    · rw [processTokenizedRecord_other_some n row st cq hk hc]
      exact ⟨(processKeyed n (jsToLower (getValue row 0 "")) row cq).2, rfl⟩

/-- The record loop only appends to the diagnostic channel. -/
theorem runRecords_diags_ext (rs : List String) : ∀ (n : Nat) (st : ParseState),
    ∃ t, (runRecords n rs st).diags = st.diags ++ t := by
  induction rs with
  | nil => intro n st; exact ⟨[], by simp [runRecords]⟩
  | cons r rs ih =>
    intro n st
    obtain ⟨t1, ht1⟩ := processTokenizedRecord_diags_ext n (splitCsvRow r) st
    obtain ⟨t2, ht2⟩ := ih (n + 1) (processRecord n r st)
    refine ⟨t1 ++ t2, ?_⟩
    rw [runRecords_cons, ht2]
    show (processTokenizedRecord n (splitCsvRow r) st).diags ++ t2 = _
    rw [ht1, List.append_assoc]

/-- End-of-input finalization only appends to the diagnostic channel. -/
theorem finalizeLast_diags_ext (st : ParseState) :
    ∃ t, (finalizeLast st).diags = st.diags ++ t := by
  unfold finalizeLast
  rcases hc : st.current with _ | cq
  · exact ⟨[], by simp⟩
  · by_cases hv : questionIsValid cq
    · exact ⟨[], by simp [hv]⟩
    · exact ⟨[Diag.skippedLastQuestion cq.title], by simp [hv]⟩

/-- Mid-stream finalization pushes the same questions, up to index
erasure, from two states related by an index shift; the record number
only feeds the diagnostic. -/
theorem midstreamFinalize_questions_shift (n1 n2 d : Nat)
    (stL stR : ParseState)
    (hQ : stL.questions.map eraseQ = stR.questions.map eraseQ)
    (hC : stL.current = stR.current.map (shiftQ d)) :
    (midstreamFinalize n1 stL).questions.map eraseQ =
      (midstreamFinalize n2 stR).questions.map eraseQ := by
  unfold midstreamFinalize
  rcases hc : stR.current with _ | cq <;> rw [hc] at hC <;> simp at hC <;> rw [hC]
  · exact hQ
  · simp only [baseValid_shiftQ]
    by_cases hb : baseValid cq = true
    · simp [hb, hQ, eraseQ_shiftQ]
    · simpa [hb] using hQ

/-- One record step preserves the shift relation between two runs of the
state machine whose record counters differ by a fixed offset. -/
theorem processTokenizedRecord_shift (n d : Nat) (row : List String)
    (stL stR : ParseState) (hn : 1 ≤ n)
    (hQ : stL.questions.map eraseQ = stR.questions.map eraseQ)
    (hC : stL.current = stR.current.map (shiftQ d))
    (hP : ∀ q, stR.current = some q → definedLinesPositive q = true) :
    (processTokenizedRecord (n + d) row stL).questions.map eraseQ =
        (processTokenizedRecord n row stR).questions.map eraseQ ∧
      (processTokenizedRecord (n + d) row stL).current =
        (processTokenizedRecord n row stR).current.map (shiftQ d) ∧
      ∀ q, (processTokenizedRecord n row stR).current = some q →
        definedLinesPositive q = true := by
  by_cases hk : jsToLower (getValue row 0 "") = "newquestion"
  · by_cases hkn : getValue row 1 "" ∈ knownTypes
    · rw [processTokenizedRecord_newq_known (n + d) row stL hk hkn,
        processTokenizedRecord_newq_known n row stR hk hkn]
      refine ⟨midstreamFinalize_questions_shift (n + d) n d stL stR hQ hC,
        by simp [shiftQ_fresh], ?_⟩
      intro q hq
      simp only [Option.some.injEq] at hq
      rw [← hq]
      rfl
    · rw [processTokenizedRecord_newq_unknown (n + d) row stL hk hkn,
        processTokenizedRecord_newq_unknown n row stR hk hkn]
      refine ⟨midstreamFinalize_questions_shift (n + d) n d stL stR hQ hC,
        by simp, ?_⟩
      intro q hq
      exact absurd hq (by simp)
  · rcases hc : stR.current with _ | cq
    · have hcL : stL.current = none := by rw [hC, hc]; rfl
      rw [processTokenizedRecord_other_none (n + d) row stL hk hcL,
        processTokenizedRecord_other_none n row stR hk hc]
      refine ⟨hQ, hC, hP⟩
    · have hpos := hP cq hc
      have hcL : stL.current = some (shiftQ d cq) := by rw [hC, hc]; rfl
      rw [processTokenizedRecord_other_some (n + d) row stL (shiftQ d cq) hk hcL,
        processTokenizedRecord_other_some n row stR cq hk hc]
      refine ⟨hQ, ?_, ?_⟩
      · show some ((processKeyed (n + d) (jsToLower (getValue row 0 "")) row (shiftQ d cq)).1) = _
        rw [processKeyed_shiftQ n d (jsToLower (getValue row 0 "")) row cq hpos]
        rfl
      · intro q hq
        simp only [Option.some.injEq] at hq
        rw [← hq]
        exact processKeyed_linesPos n (jsToLower (getValue row 0 "")) row cq hn hpos

/-- The record loop preserves the shift relation. -/
theorem runRecords_shift (rs : List String) : ∀ (n d : Nat)
    (stL stR : ParseState), 1 ≤ n →
    stL.questions.map eraseQ = stR.questions.map eraseQ →
    stL.current = stR.current.map (shiftQ d) →
    (∀ q, stR.current = some q → definedLinesPositive q = true) →
    (runRecords (n + d) rs stL).questions.map eraseQ =
        (runRecords n rs stR).questions.map eraseQ ∧
      (runRecords (n + d) rs stL).current =
        (runRecords n rs stR).current.map (shiftQ d) ∧
      ∀ q, (runRecords n rs stR).current = some q →
        definedLinesPositive q = true := by
  induction rs with
  | nil => intro n d stL stR hn hQ hC hP; exact ⟨hQ, hC, hP⟩
  | cons r rs ih =>
    intro n d stL stR hn hQ hC hP
    obtain ⟨hQ1, hC1, hP1⟩ :=
      processTokenizedRecord_shift n d (splitCsvRow r) stL stR hn hQ hC hP
    rw [runRecords_cons (n + d) r rs stL, runRecords_cons n r rs stR]
    have harith : n + d + 1 = n + 1 + d := by omega
    rw [harith]
    exact ih (n + 1) d (processRecord (n + d) r stL) (processRecord n r stR)
      (by omega) hQ1 hC1 hP1

/-- End-of-input finalization yields the same questions, up to index
erasure, from two states related by an index shift. -/
theorem finalizeLast_shift (d : Nat) (stL stR : ParseState)
    (hQ : stL.questions.map eraseQ = stR.questions.map eraseQ)
    (hC : stL.current = stR.current.map (shiftQ d)) :
    (finalizeLast stL).questions.map eraseQ =
      (finalizeLast stR).questions.map eraseQ := by
  rcases hc : stR.current with _ | cq
  · have hcL : stL.current = none := by rw [hC, hc]; rfl
    rw [finalizeLast_none stL hcL, finalizeLast_none stR hc]
    exact hQ
  · have hcL : stL.current = some (shiftQ d cq) := by rw [hC, hc]; rfl
    rw [finalizeLast_some stL (shiftQ d cq) hcL, finalizeLast_some stR cq hc]
    simp only [questionIsValid_shiftQ]
    by_cases hv : questionIsValid cq = true
    · simp [hv, hQ, eraseQ_shiftQ]
    · simpa [hv] using hQ

/-- C3, amended: a `NewQuestion` record with an unknown type code, together
with the non-`newquestion` records of its block, contributes no question:
the parser logs the unknown type and skips to the next `NewQuestion`
record, and a following valid `NewQuestion` block parses to the same
questions as it would without the malformed block, up to the internal
TF record indices (`definedLine`), which are shifted by the length of the
skipped block. -/
theorem c3_amended_malformed_block_skipped
    (P mrest srest : List String) (m0 s0 : String)
    (hm0k : jsToLower (getValue (splitCsvRow m0) 0 "") = "newquestion")
    (hm0u : getValue (splitCsvRow m0) 1 "" ∉ knownTypes)
    (hmrest : ∀ r ∈ mrest, jsToLower (getValue (splitCsvRow r) 0 "") ≠ "newquestion")
    (hs0k : jsToLower (getValue (splitCsvRow s0) 0 "") = "newquestion")
    (hs0v : getValue (splitCsvRow s0) 1 "" ∈ knownTypes) :
    (parseRecordsFull (P ++ m0 :: (mrest ++ s0 :: srest))).questions.map eraseQ =
        (parseRecordsFull (P ++ s0 :: srest)).questions.map eraseQ ∧
      Diag.unknownQuestionType (P.length + 1) (getValue (splitCsvRow m0) 1 "") ∈
        (parseRecordsFull (P ++ m0 :: (mrest ++ s0 :: srest))).diags := by
  have hm0step : processRecord (1 + P.length) m0 (runRecords 1 P initState) = { midstreamFinalize (1 + P.length) (runRecords 1 P initState) with current := none, diags := (midstreamFinalize (1 + P.length) (runRecords 1 P initState)).diags ++ [Diag.unknownQuestionType (1 + P.length) (getValue (splitCsvRow m0) 1 "")] } :=
    processTokenizedRecord_newq_unknown (1 + P.length) (splitCsvRow m0)
      (runRecords 1 P initState) hm0k hm0u
  have hskip : runRecords (1 + P.length + 1) mrest { midstreamFinalize (1 + P.length) (runRecords 1 P initState) with current := none, diags := (midstreamFinalize (1 + P.length) (runRecords 1 P initState)).diags ++ [Diag.unknownQuestionType (1 + P.length) (getValue (splitCsvRow m0) 1 "")] } = { midstreamFinalize (1 + P.length) (runRecords 1 P initState) with current := none, diags := (midstreamFinalize (1 + P.length) (runRecords 1 P initState)).diags ++ [Diag.unknownQuestionType (1 + P.length) (getValue (splitCsvRow m0) 1 "")] } :=
    runRecords_none_skip mrest (1 + P.length + 1) { midstreamFinalize (1 + P.length) (runRecords 1 P initState) with current := none, diags := (midstreamFinalize (1 + P.length) (runRecords 1 P initState)).diags ++ [Diag.unknownQuestionType (1 + P.length) (getValue (splitCsvRow m0) 1 "")] } rfl hmrest
  have hs0stepL : processRecord (1 + P.length + 1 + mrest.length) s0 { midstreamFinalize (1 + P.length) (runRecords 1 P initState) with current := none, diags := (midstreamFinalize (1 + P.length) (runRecords 1 P initState)).diags ++ [Diag.unknownQuestionType (1 + P.length) (getValue (splitCsvRow m0) 1 "")] } = { { midstreamFinalize (1 + P.length) (runRecords 1 P initState) with current := none, diags := (midstreamFinalize (1 + P.length) (runRecords 1 P initState)).diags ++ [Diag.unknownQuestionType (1 + P.length) (getValue (splitCsvRow m0) 1 "")] } with current := some (freshQuestion (getValue (splitCsvRow s0) 1 "")) } := by
    have h1 := processTokenizedRecord_newq_known (1 + P.length + 1 + mrest.length)
      (splitCsvRow s0) { midstreamFinalize (1 + P.length) (runRecords 1 P initState) with current := none, diags := (midstreamFinalize (1 + P.length) (runRecords 1 P initState)).diags ++ [Diag.unknownQuestionType (1 + P.length) (getValue (splitCsvRow m0) 1 "")] } hs0k hs0v
    rw [midstreamFinalize_none (1 + P.length + 1 + mrest.length) { midstreamFinalize (1 + P.length) (runRecords 1 P initState) with current := none, diags := (midstreamFinalize (1 + P.length) (runRecords 1 P initState)).diags ++ [Diag.unknownQuestionType (1 + P.length) (getValue (splitCsvRow m0) 1 "")] } rfl] at h1
    exact h1
  have hs0stepR : processRecord (1 + P.length) s0 (runRecords 1 P initState) = { midstreamFinalize (1 + P.length) (runRecords 1 P initState) with current := some (freshQuestion (getValue (splitCsvRow s0) 1 "")) } :=
    processTokenizedRecord_newq_known (1 + P.length) (splitCsvRow s0)
      (runRecords 1 P initState) hs0k hs0v
  have eL : runRecords 1 (P ++ m0 :: (mrest ++ s0 :: srest)) initState =
      runRecords ((1 + P.length + 1) + (mrest.length + 1)) srest { { midstreamFinalize (1 + P.length) (runRecords 1 P initState) with current := none, diags := (midstreamFinalize (1 + P.length) (runRecords 1 P initState)).diags ++ [Diag.unknownQuestionType (1 + P.length) (getValue (splitCsvRow m0) 1 "")] } with current := some (freshQuestion (getValue (splitCsvRow s0) 1 "")) } := by
    rw [runRecords_append P (m0 :: (mrest ++ s0 :: srest)) 1 initState]
    rw [runRecords_cons (1 + P.length) m0 (mrest ++ s0 :: srest) (runRecords 1 P initState)]
    rw [hm0step]
    rw [runRecords_append mrest (s0 :: srest) (1 + P.length + 1) { midstreamFinalize (1 + P.length) (runRecords 1 P initState) with current := none, diags := (midstreamFinalize (1 + P.length) (runRecords 1 P initState)).diags ++ [Diag.unknownQuestionType (1 + P.length) (getValue (splitCsvRow m0) 1 "")] }]
    rw [hskip]
    rw [runRecords_cons (1 + P.length + 1 + mrest.length) s0 srest { midstreamFinalize (1 + P.length) (runRecords 1 P initState) with current := none, diags := (midstreamFinalize (1 + P.length) (runRecords 1 P initState)).diags ++ [Diag.unknownQuestionType (1 + P.length) (getValue (splitCsvRow m0) 1 "")] }]
    rw [hs0stepL]
    have harith : 1 + P.length + 1 + mrest.length + 1 = (1 + P.length + 1) + (mrest.length + 1) := by omega
    rw [harith]
  have eR : runRecords 1 (P ++ s0 :: srest) initState =
      runRecords (1 + P.length + 1) srest { midstreamFinalize (1 + P.length) (runRecords 1 P initState) with current := some (freshQuestion (getValue (splitCsvRow s0) 1 "")) } := by
    rw [runRecords_append P (s0 :: srest) 1 initState]
    rw [runRecords_cons (1 + P.length) s0 srest (runRecords 1 P initState)]
    rw [hs0stepR]
  have hC : ({ { midstreamFinalize (1 + P.length) (runRecords 1 P initState) with current := none, diags := (midstreamFinalize (1 + P.length) (runRecords 1 P initState)).diags ++ [Diag.unknownQuestionType (1 + P.length) (getValue (splitCsvRow m0) 1 "")] } with current := some (freshQuestion (getValue (splitCsvRow s0) 1 "")) }).current = (({ midstreamFinalize (1 + P.length) (runRecords 1 P initState) with current := some (freshQuestion (getValue (splitCsvRow s0) 1 "")) }).current).map (shiftQ (mrest.length + 1)) := by
    simp [shiftQ_fresh]
  have hP : ∀ q, ({ midstreamFinalize (1 + P.length) (runRecords 1 P initState) with current := some (freshQuestion (getValue (splitCsvRow s0) 1 "")) }).current = some q → definedLinesPositive q = true := by
    intro q hq
    injection hq with h
    rw [← h]
    rfl
  obtain ⟨hQ2, hC2, hP2⟩ := runRecords_shift srest (1 + P.length + 1) (mrest.length + 1)
    { { midstreamFinalize (1 + P.length) (runRecords 1 P initState) with current := none, diags := (midstreamFinalize (1 + P.length) (runRecords 1 P initState)).diags ++ [Diag.unknownQuestionType (1 + P.length) (getValue (splitCsvRow m0) 1 "")] } with current := some (freshQuestion (getValue (splitCsvRow s0) 1 "")) } { midstreamFinalize (1 + P.length) (runRecords 1 P initState) with current := some (freshQuestion (getValue (splitCsvRow s0) 1 "")) } (by omega) rfl hC hP
  constructor
  · show (finalizeLast (runRecords 1 (P ++ m0 :: (mrest ++ s0 :: srest)) initState)).questions.map eraseQ =
      (finalizeLast (runRecords 1 (P ++ s0 :: srest) initState)).questions.map eraseQ
    rw [eL, eR]
    exact finalizeLast_shift (mrest.length + 1)
      (runRecords ((1 + P.length + 1) + (mrest.length + 1)) srest { { midstreamFinalize (1 + P.length) (runRecords 1 P initState) with current := none, diags := (midstreamFinalize (1 + P.length) (runRecords 1 P initState)).diags ++ [Diag.unknownQuestionType (1 + P.length) (getValue (splitCsvRow m0) 1 "")] } with current := some (freshQuestion (getValue (splitCsvRow s0) 1 "")) })
      (runRecords (1 + P.length + 1) srest { midstreamFinalize (1 + P.length) (runRecords 1 P initState) with current := some (freshQuestion (getValue (splitCsvRow s0) 1 "")) }) hQ2 hC2
  · show Diag.unknownQuestionType (P.length + 1) (getValue (splitCsvRow m0) 1 "") ∈
      (finalizeLast (runRecords 1 (P ++ m0 :: (mrest ++ s0 :: srest)) initState)).diags
    rw [eL]
    obtain ⟨t2, ht2⟩ := finalizeLast_diags_ext
      (runRecords ((1 + P.length + 1) + (mrest.length + 1)) srest { { midstreamFinalize (1 + P.length) (runRecords 1 P initState) with current := none, diags := (midstreamFinalize (1 + P.length) (runRecords 1 P initState)).diags ++ [Diag.unknownQuestionType (1 + P.length) (getValue (splitCsvRow m0) 1 "")] } with current := some (freshQuestion (getValue (splitCsvRow s0) 1 "")) })
    obtain ⟨t1, ht1⟩ := runRecords_diags_ext srest ((1 + P.length + 1) + (mrest.length + 1)) { { midstreamFinalize (1 + P.length) (runRecords 1 P initState) with current := none, diags := (midstreamFinalize (1 + P.length) (runRecords 1 P initState)).diags ++ [Diag.unknownQuestionType (1 + P.length) (getValue (splitCsvRow m0) 1 "")] } with current := some (freshQuestion (getValue (splitCsvRow s0) 1 "")) }
    rw [ht2, ht1]
    apply List.mem_append_left
    apply List.mem_append_left
    show Diag.unknownQuestionType (P.length + 1) (getValue (splitCsvRow m0) 1 "") ∈
      (midstreamFinalize (1 + P.length) (runRecords 1 P initState)).diags ++ [Diag.unknownQuestionType (1 + P.length) (getValue (splitCsvRow m0) 1 "")]
    have hidx : 1 + P.length = P.length + 1 := Nat.add_comm 1 P.length
    rw [hidx]
    exact List.mem_append_right _ (List.mem_singleton.mpr rfl)


/-- C3, amended, witness: a concrete TF block, then a malformed
`NewQuestion,ZZ` block, then a valid WR block. -/
theorem c3_amended_witness :
    jsToLower (getValue (splitCsvRow "NewQuestion,ZZ") 0 "") = "newquestion" ∧
      getValue (splitCsvRow "NewQuestion,ZZ") 1 "" ∉ knownTypes ∧
      ((parseRecordsFull (["NewQuestion,TF", "Title,T1", "QuestionText,Q1", "True,Yes", "False,No"] ++ "NewQuestion,ZZ" :: (["Title,Bad"] ++ "NewQuestion,WR" :: ["Title,T2", "QuestionText,Q2"]))).questions.map eraseQ =
          (parseRecordsFull (["NewQuestion,TF", "Title,T1", "QuestionText,Q1", "True,Yes", "False,No"] ++ "NewQuestion,WR" :: ["Title,T2", "QuestionText,Q2"])).questions.map eraseQ ∧
        Diag.unknownQuestionType ((["NewQuestion,TF", "Title,T1", "QuestionText,Q1", "True,Yes", "False,No"] : List String).length + 1)
            (getValue (splitCsvRow "NewQuestion,ZZ") 1 "") ∈
          (parseRecordsFull (["NewQuestion,TF", "Title,T1", "QuestionText,Q1", "True,Yes", "False,No"] ++ "NewQuestion,ZZ" :: (["Title,Bad"] ++ "NewQuestion,WR" :: ["Title,T2", "QuestionText,Q2"]))).diags) :=
  ⟨by decide, by decide,
    c3_amended_malformed_block_skipped
      ["NewQuestion,TF", "Title,T1", "QuestionText,Q1", "True,Yes", "False,No"]
      ["Title,Bad"] ["Title,T2", "QuestionText,Q2"] "NewQuestion,ZZ" "NewQuestion,WR"
      (by decide) (by decide) (by decide) (by decide) (by decide)⟩

end QuizView
